import Mathlib

/-!
Verification development for the `mylogger` package
(`src/packages/logger/src/mylogger/core.py`): a structured-logging facade
over `structlog` with process-wide configuration state, environment
fallbacks, a fixed processor pipeline, semantic helper operations and
contextvars-based ambient context.

The embedding models:
  * Python `dict` objects as insertion-ordered association lists with
    unique-key update semantics (`dictSet` replaces in place, `dictUpdate`
    mirrors `dict.update`),
  * the environment (`MYLOGGER_FORMAT`, `MYLOGGER_EXCLUDE`) plus the clock
    as an explicit `Env` value passed to every operation,
  * the module globals `_log_format`, `_exclude_levels`, `_configured`,
    the structlog processor pipeline installed by `structlog.configure`,
    the contextvars context and the stream of printed lines as a
    `LogState`,
  * each processor of the configured pipeline as a named `ProcStep` whose
    interpretation follows structlog's documented behaviour
    (`merge_contextvars` merges the ambient context with event fields
    winning, `add_log_level` writes the `level` key from the method name,
    `TimeStamper` writes an ISO `timestamp`, `ExtraAdder` and
    `dict_tracebacks` are no-ops for events carrying no stdlib record or
    exception, renderers terminate the chain),
  * Python keyword-argument collision errors: a call such as
    `f(msg, status="success", **kwargs)` raises `TypeError` when `kwargs`
    contains `status` (duplicate keyword), when it contains `event` or
    `self` (the underlying bound method is `info(self, event, **kw)`), and
    `log_xxx(msg, **kwargs)` raises before its body runs when `kwargs`
    contains `msg`.
-/

set_option autoImplicit false

namespace MyLogger

/-- A field value of an event dictionary (string or integer payloads are
all the claims need). -/
inductive Val where
  | str (s : String)
  | int (n : Int)
deriving DecidableEq, Repr

/-- A Python `dict[str, Any]` as an insertion-ordered association list. -/
abbrev Fields := List (String × Val)

/-- `d[k]` lookup: first matching key (keys are unique in dictionaries
built by the modelled operations). -/
def dictGet : Fields → String → Option Val
  | [], _ => none
  | (k', v') :: rest, k => if k' = k then some v' else dictGet rest k

/-- `d[k] = v` assignment: replace the value in place keeping the key's
position, append when absent (Python dict assignment). -/
def dictSet : Fields → String → Val → Fields
  | [], k, v => [(k, v)]
  | (k', v') :: rest, k, v =>
      if k' = k then (k, v) :: rest else (k', v') :: dictSet rest k v

/-- `key in d` membership test. -/
def kwHasKey (d : Fields) (k : String) : Bool :=
  d.any (fun p => p.1 = k)

/-- `d.update(e)`: fold the overlay's entries into the base dict
left-to-right, the overlay winning on key collisions. -/
def dictUpdate (d : Fields) : Fields → Fields
  | [] => d
  | (k, v) :: rest => dictUpdate (dictSet d k v) rest

/-- Removal of a key (`del d[k]` / contextvars unbinding); absent keys are
left alone. -/
def dictRemove : Fields → String → Fields
  | [], _ => []
  | (k', v') :: rest, k =>
      if k' = k then dictRemove rest k else (k', v') :: dictRemove rest k

/-- `d.get(k, "")` followed by use as a string (the `level` value is always
a string in the modelled pipeline). -/
def dictGetStr (d : Fields) (k : String) : String :=
  match dictGet d k with
  | some (Val.str s) => s
  | _ => ""

/-- The characters removed by Python `str.strip()` (ASCII whitespace). -/
def pyIsSpace (c : Char) : Bool :=
  c = ' ' || c = '\t' || c = '\n' || c = '\r' || c = '\x0b' || c = '\x0c'

/-- Python `str.strip()`. -/
def pyStrip (s : String) : String :=
  String.mk (((s.toList.dropWhile pyIsSpace).reverse.dropWhile pyIsSpace).reverse)

/-- Python `str.lower()` restricted to the ASCII letters, which is all the
format and level names compared against use. -/
def pyLowerChar (c : Char) : Char :=
  if 65 ≤ c.toNat ∧ c.toNat ≤ 90 then Char.ofNat (c.toNat + 32) else c

/-- Python `str.lower()` on an ASCII string. -/
def pyLower (s : String) : String :=
  String.mk (s.toList.map pyLowerChar)

/-- The external world read by the facade: the two environment variables
and the current time rendered as an ISO-8601 string (what
`TimeStamper(fmt="iso")` would produce at this instant). -/
structure Env where
  format : Option String
  exclude : Option String
  now : String
deriving DecidableEq, Repr

/-- `_get_format`: the cached `_log_format` global when set, else
`os.environ.get("MYLOGGER_FORMAT", "console").lower()`. -/
def get_format (env : Env) (cached : Option String) : String :=
  match cached with
  | some f => f
  | none => pyLower (env.format.getD "console")

/-- Python `str.split(sep)` for a one-character separator over the
character list: empty fields are kept and `"".split(",") == [""]`. -/
def splitChar (sep : Char) : List Char → List Char → List (List Char)
  | [], acc => [acc.reverse]
  | c :: rest, acc =>
      if c = sep then acc.reverse :: splitChar sep rest []
      else splitChar sep rest (c :: acc)

/-- Python `s.split(sep)` for a one-character separator. -/
def pySplit (s : String) (sep : Char) : List String :=
  (splitChar sep s.toList []).map String.mk

/-- The set comprehension of `_get_exclude_levels`: split on commas, keep
entries nonempty after stripping, strip and lowercase each. -/
def parseExcludeStr (s : String) : List String :=
  (pySplit s ',').filterMap fun entry =>
    let t := pyStrip entry
    if t = "" then none else some (pyLower t)

/-- `_get_exclude_levels`: the cached `_exclude_levels` global when set,
else parse `os.environ.get("MYLOGGER_EXCLUDE", "")`, an empty string
meaning no exclusions. -/
def get_exclude_levels (env : Env) (cached : Option (List String)) : List String :=
  match cached with
  | some e => e
  | none =>
      let excludeStr := env.exclude.getD ""
      if excludeStr = "" then [] else parseExcludeStr excludeStr

/-- The processors appearing in the pipelines installed by `configure`. -/
inductive ProcStep where
  | mergeContextvars
  | addLogLevel
  | filterByLevel
  | timeStamper
  | extraAdder
  | dictTracebacks
  | consoleRenderer
  | jsonRenderer
deriving DecidableEq, Repr

/-- `shared_processors` of `configure`. -/
def sharedProcessors : List ProcStep :=
  [ProcStep.mergeContextvars, ProcStep.addLogLevel, ProcStep.filterByLevel,
   ProcStep.timeStamper, ProcStep.extraAdder]

/-- The console-mode pipeline installed by `configure`. -/
def consoleProcessors : List ProcStep :=
  sharedProcessors ++ [ProcStep.consoleRenderer]

/-- The JSON-mode pipeline installed by `configure`. -/
def jsonProcessors : List ProcStep :=
  sharedProcessors ++ [ProcStep.dictTracebacks, ProcStep.jsonRenderer]

/-- `configure` installs the console pipeline exactly when the resolved
format equals `"console"`, the JSON pipeline otherwise. -/
def processorsFor (fmt : String) : List ProcStep :=
  if fmt = "console" then consoleProcessors else jsonProcessors

/-- structlog `add_log_level`'s method-name-to-level mapping. -/
def methodToLevel (m : String) : String :=
  if m = "warn" then "warning" else if m = "exception" then "error" else m

/-- One printed line: the fully processed event dictionary together with
the renderer that produced it. -/
inductive Rendered where
  | console (d : Fields)
  | json (d : Fields)
deriving DecidableEq, Repr

/-- The event dictionary carried by a rendered line. -/
def Rendered.fields : Rendered → Fields
  | Rendered.console d => d
  | Rendered.json d => d

/-- Wrap a final event dictionary in the renderer selected for `fmt`. -/
def mkRendered (fmt : String) (d : Fields) : Rendered :=
  if fmt = "console" then Rendered.console d else Rendered.json d

/-- Run a processor chain on an event dictionary. `excl` is the
`_exclude_levels` global and `ctx` the contextvars context at emission
time; `none` means the event was dropped by `_filter_by_level` (structlog
`DropEvent`) or that no renderer terminated the chain. -/
def runProcs (env : Env) (excl : Option (List String)) (ctx : Fields)
    (method : String) : List ProcStep → Fields → Option Rendered
  | [], _ => none
  | step :: rest, d =>
      match step with
      | ProcStep.mergeContextvars => runProcs env excl ctx method rest (dictUpdate ctx d)
      | ProcStep.addLogLevel =>
          runProcs env excl ctx method rest
            (dictSet d "level" (Val.str (methodToLevel method)))
      | ProcStep.filterByLevel =>
          let ex := get_exclude_levels env excl
          if !ex.isEmpty && ex.contains (pyLower (dictGetStr d "level")) then none
          else runProcs env excl ctx method rest d
      | ProcStep.timeStamper =>
          runProcs env excl ctx method rest (dictSet d "timestamp" (Val.str env.now))
      | ProcStep.extraAdder => runProcs env excl ctx method rest d
      | ProcStep.dictTracebacks => runProcs env excl ctx method rest d
      | ProcStep.consoleRenderer => some (Rendered.console d)
      | ProcStep.jsonRenderer => some (Rendered.json d)

/-- The module state: the three globals of `core.py`, the structlog
pipeline installed by the last `structlog.configure` call, the contextvars
context and the lines printed so far (in order). -/
structure LogState where
  logFormat : Option String
  excludeLevels : Option (List String)
  configured : Bool
  pipeline : List ProcStep
  context : Fields
  output : List Rendered
deriving DecidableEq, Repr

/-- The state at module import: nothing configured, no context, no
output. -/
def initState : LogState :=
  { logFormat := none, excludeLevels := none, configured := false,
    pipeline := [], context := [], output := [] }

/-- `configure(format=..., exclude=...)`: lowercase and store the explicit
arguments (leaving the globals alone when an argument is omitted), then
install the pipeline selected by `_get_format()` and set `_configured`. -/
def configure (env : Env) (format : Option String)
    (exclude : Option (List String)) (s : LogState) : LogState :=
  let lf := match format with
    | some f => some (pyLower f)
    | none => s.logFormat
  let ex := match exclude with
    | some l => some (l.map pyLower)
    | none => s.excludeLevels
  { s with logFormat := lf, excludeLevels := ex,
           pipeline := processorsFor (get_format env lf), configured := true }

/-- `_ensure_configured`: configure with defaults when not yet
configured. -/
def ensure_configured (env : Env) (s : LogState) : LogState :=
  if s.configured then s else configure env none none s

/-- An emission through the installed pipeline:
`structlog.get_logger("app").<method>(msg, **kw)` on an already ensured
state. The event dictionary starts as the keyword fields with `event` set
to the message, then runs through the pipeline; a rendered result is
printed (appended to the output), a dropped event leaves the output
untouched. -/
def emitConfigured (env : Env) (method msg : String) (kw : Fields)
    (s : LogState) : LogState :=
  match runProcs env s.excludeLevels s.context method s.pipeline
      (dictSet kw "event" (Val.str msg)) with
  | some r => { s with output := s.output ++ [r] }
  | none => s

/-- Result of a facade call: the state afterwards and whether the call
raised a `TypeError` (duplicate keyword argument). -/
structure CallResult where
  state : LogState
  raised : Bool
deriving DecidableEq, Repr

/-- Keys of `kw` colliding with parameters of the underlying
`info(self, event, **kw)`-shaped bound-logger method, which raise
`TypeError: got multiple values for argument ...` at the call. -/
def boundMethodCollides (kw : Fields) : Bool :=
  kwHasKey kw "self" || kwHasKey kw "event"

/-- Common body of the `log_*` helpers:
`def log_x(msg, **kwargs): _ensure_configured(); structlog.get_logger("app").<method>(msg, [tag,] **kwargs)`.
A caller keyword named `msg` collides with the helper's own parameter and
raises before the body runs; one colliding with the fixed tag or with the
bound method's `self`/`event` parameters raises after configuration but
before any emission. -/
def helperCall (env : Env) (tag : Option (String × String)) (method : String)
    (msg : String) (kw : Fields) (s : LogState) : CallResult :=
  if kwHasKey kw "msg" then { state := s, raised := true }
  else
    let s1 := ensure_configured env s
    let tagCollides := match tag with
      | some (k, _) => kwHasKey kw k
      | none => false
    if boundMethodCollides kw || tagCollides then { state := s1, raised := true }
    else
      let kw1 := match tag with
        | some (k, v) => (k, Val.str v) :: kw
        | none => kw
      { state := emitConfigured env method msg kw1 s1, raised := false }

/-- `get_logger(name).<method>(msg, **kw)`: `get_logger` ensures
configuration, the method call emits through the current pipeline. -/
def loggerMethodCall (env : Env) (method msg : String) (kw : Fields)
    (s : LogState) : CallResult :=
  let s1 := ensure_configured env s
  if boundMethodCollides kw then { state := s1, raised := true }
  else { state := emitConfigured env method msg kw s1, raised := false }

/-- `log_success`: info-level emission tagged `status="success"`. -/
def log_success (env : Env) (msg : String) (kw : Fields) (s : LogState) : CallResult :=
  helperCall env (some ("status", "success")) "info" msg kw s

/-- `log_error`: error-level emission, no tag. -/
def log_error (env : Env) (msg : String) (kw : Fields) (s : LogState) : CallResult :=
  helperCall env none "error" msg kw s

/-- `log_warning`: warning-level emission, no tag. -/
def log_warning (env : Env) (msg : String) (kw : Fields) (s : LogState) : CallResult :=
  helperCall env none "warning" msg kw s

/-- `log_info`: info-level emission, no tag. -/
def log_info (env : Env) (msg : String) (kw : Fields) (s : LogState) : CallResult :=
  helperCall env none "info" msg kw s

/-- `log_start`: info-level emission tagged `phase="start"`. -/
def log_start (env : Env) (msg : String) (kw : Fields) (s : LogState) : CallResult :=
  helperCall env (some ("phase", "start")) "info" msg kw s

/-- `log_end`: info-level emission tagged `phase="end"`. -/
def log_end (env : Env) (msg : String) (kw : Fields) (s : LogState) : CallResult :=
  helperCall env (some ("phase", "end")) "info" msg kw s

/-- `log_db`: info-level emission tagged `component="database"`. -/
def log_db (env : Env) (msg : String) (kw : Fields) (s : LogState) : CallResult :=
  helperCall env (some ("component", "database")) "info" msg kw s

/-- `log_progress`: info-level emission tagged `phase="progress"`. -/
def log_progress (env : Env) (msg : String) (kw : Fields) (s : LogState) : CallResult :=
  helperCall env (some ("phase", "progress")) "info" msg kw s

/-- `log_completion`: info-level emission tagged `phase="complete"`. -/
def log_completion (env : Env) (msg : String) (kw : Fields) (s : LogState) : CallResult :=
  helperCall env (some ("phase", "complete")) "info" msg kw s

/-- `log_extract`: info-level emission tagged `operation="extract"`. -/
def log_extract (env : Env) (msg : String) (kw : Fields) (s : LogState) : CallResult :=
  helperCall env (some ("operation", "extract")) "info" msg kw s

/-- `log_input`: info-level emission tagged `direction="input"`. -/
def log_input (env : Env) (msg : String) (kw : Fields) (s : LogState) : CallResult :=
  helperCall env (some ("direction", "input")) "info" msg kw s

/-- `log_output`: info-level emission tagged `direction="output"`. -/
def log_output (env : Env) (msg : String) (kw : Fields) (s : LogState) : CallResult :=
  helperCall env (some ("direction", "output")) "info" msg kw s

/-- `bind_context(**kwargs)`: merge the fields into the contextvars
context, overwriting existing keys. Does not configure. -/
def bind_context (kw : Fields) (s : LogState) : LogState :=
  { s with context := dictUpdate s.context kw }

/-- `clear_context()`: remove all ambient context. -/
def clear_context (s : LogState) : LogState :=
  { s with context := [] }

/-- `unbind_context(*keys)`: remove the named keys, absent keys being a
no-op. -/
def unbind_context (keys : List String) (s : LogState) : LogState :=
  { s with context := keys.foldl dictRemove s.context }

/-- The facade's operations, for statements quantifying over call
sequences. `loggerLog` covers both `get_logger(name).<method>(...)` and
the lazy module-level `logger` object, whose attribute access configures
and then delegates to the same bound logger. -/
inductive Op where
  | configure (format : Option String) (exclude : Option (List String))
  | getLogger (name : String)
  | loggerLog (method msg : String) (kw : Fields)
  | logSuccess (msg : String) (kw : Fields)
  | logError (msg : String) (kw : Fields)
  | logWarning (msg : String) (kw : Fields)
  | logInfo (msg : String) (kw : Fields)
  | logStart (msg : String) (kw : Fields)
  | logEnd (msg : String) (kw : Fields)
  | logDb (msg : String) (kw : Fields)
  | logProgress (msg : String) (kw : Fields)
  | logCompletion (msg : String) (kw : Fields)
  | logExtract (msg : String) (kw : Fields)
  | logInput (msg : String) (kw : Fields)
  | logOutput (msg : String) (kw : Fields)
  | bindContext (kw : Fields)
  | clearContext
  | unbindContext (keys : List String)

/-- The state transition of one operation under the environment current at
the moment of the call (a raised `TypeError` propagates to the caller but
the state reflects the work done before the raise). -/
def step (env : Env) (op : Op) (s : LogState) : LogState :=
  match op with
  | Op.configure f e => configure env f e s
  | Op.getLogger _ => ensure_configured env s
  | Op.loggerLog m msg kw => (loggerMethodCall env m msg kw s).state
  | Op.logSuccess msg kw => (log_success env msg kw s).state
  | Op.logError msg kw => (log_error env msg kw s).state
  | Op.logWarning msg kw => (log_warning env msg kw s).state
  | Op.logInfo msg kw => (log_info env msg kw s).state
  | Op.logStart msg kw => (log_start env msg kw s).state
  | Op.logEnd msg kw => (log_end env msg kw s).state
  | Op.logDb msg kw => (log_db env msg kw s).state
  | Op.logProgress msg kw => (log_progress env msg kw s).state
  | Op.logCompletion msg kw => (log_completion env msg kw s).state
  | Op.logExtract msg kw => (log_extract env msg kw s).state
  | Op.logInput msg kw => (log_input env msg kw s).state
  | Op.logOutput msg kw => (log_output env msg kw s).state
  | Op.bindContext kw => bind_context kw s
  | Op.clearContext => clear_context s
  | Op.unbindContext keys => unbind_context keys s

/-- Operations that call `_ensure_configured` (directly or via
`get_logger`) before doing anything else. -/
def configuresOnUse : Op → Bool
  | Op.configure _ _ => false
  | Op.getLogger _ => true
  | Op.loggerLog _ _ _ => true
  | Op.logSuccess _ _ => true
  | Op.logError _ _ => true
  | Op.logWarning _ _ => true
  | Op.logInfo _ _ => true
  | Op.logStart _ _ => true
  | Op.logEnd _ _ => true
  | Op.logDb _ _ => true
  | Op.logProgress _ _ => true
  | Op.logCompletion _ _ => true
  | Op.logExtract _ _ => true
  | Op.logInput _ _ => true
  | Op.logOutput _ _ => true
  | Op.bindContext _ => false
  | Op.clearContext => false
  | Op.unbindContext _ => false

/-- Operations that emit an event (when nothing raises and the level is
not excluded). -/
def isEmitting : Op → Bool
  | Op.loggerLog _ _ _ => true
  | Op.logSuccess _ _ => true
  | Op.logError _ _ => true
  | Op.logWarning _ _ => true
  | Op.logInfo _ _ => true
  | Op.logStart _ _ => true
  | Op.logEnd _ _ => true
  | Op.logDb _ _ => true
  | Op.logProgress _ _ => true
  | Op.logCompletion _ _ => true
  | Op.logExtract _ _ => true
  | Op.logInput _ _ => true
  | Op.logOutput _ _ => true
  | _ => false

/-- A helper operation whose keyword fields collide with the helper's own
`msg` parameter raises before `_ensure_configured` runs; this predicate
rules that out (it is vacuous for non-helper operations). -/
def opMsgClean : Op → Bool
  | Op.logSuccess _ kw => !kwHasKey kw "msg"
  | Op.logError _ kw => !kwHasKey kw "msg"
  | Op.logWarning _ kw => !kwHasKey kw "msg"
  | Op.logInfo _ kw => !kwHasKey kw "msg"
  | Op.logStart _ kw => !kwHasKey kw "msg"
  | Op.logEnd _ kw => !kwHasKey kw "msg"
  | Op.logDb _ kw => !kwHasKey kw "msg"
  | Op.logProgress _ kw => !kwHasKey kw "msg"
  | Op.logCompletion _ kw => !kwHasKey kw "msg"
  | Op.logExtract _ kw => !kwHasKey kw "msg"
  | Op.logInput _ kw => !kwHasKey kw "msg"
  | Op.logOutput _ kw => !kwHasKey kw "msg"
  | _ => true

/-- Run a sequence of operations, each under the environment current at
its call. -/
def run (ops : List (Env × Op)) (s : LogState) : LogState :=
  ops.foldl (fun st p => step p.1 p.2 st) s

/-- Lookup after a `dict.update`: threads the default through the overlay,
the overlay's last binding of the key winning. -/
def updGet : Fields → String → Option Val → Option Val
  | [], _, acc => acc
  | (k', v') :: rest, k, acc => updGet rest k (if k' = k then some v' else acc)

/-- The lines a call appended to the output. -/
def newOutput (s : LogState) (r : CallResult) : List Rendered :=
  r.state.output.drop s.output.length

/-- The keyword fields avoid every key in the given list. -/
def kwAvoids (kw : Fields) (ks : List String) : Bool :=
  ks.all fun k => !kwHasKey kw k

/-- A context key that no pipeline step overwrites (`event`, `level` and
`timestamp` are written by the event constructor, `add_log_level` and
`TimeStamper` respectively). -/
def contextSafeKey (k : String) : Bool :=
  !(k == "event" || k == "level" || k == "timestamp")

/-- Whether `_filter_by_level` drops an emission made through `method`
when the effective exclusion set is `E`. -/
def callDropped (E : List String) (method : String) : Bool :=
  !E.isEmpty && E.contains (pyLower (methodToLevel method))

/-- The line printed by a non-dropped emission: the event fields overlaid
on the ambient context, then `level` and `timestamp` attached, rendered by
the selected renderer. -/
def renderOf (env : Env) (fmt : String) (ctx : Fields) (method msg : String)
    (kw : Fields) : Rendered :=
  mkRendered fmt
    (dictSet (dictSet (dictUpdate ctx (dictSet kw "event" (Val.str msg)))
        "level" (Val.str (methodToLevel method)))
      "timestamp" (Val.str env.now))

/-- The pipeline field is one that the program can actually reach: either
not yet configured (every emitting operation then configures first), or a
pipeline installed by `configure`. -/
def goodPipeline (s : LogState) : Prop :=
  s.configured = false ∨ s.pipeline = consoleProcessors ∨ s.pipeline = jsonProcessors

/-! ### Dictionary lemmas -/

theorem dictGet_set_self (d : Fields) (k : String) (v : Val) :
    dictGet (dictSet d k v) k = some v := by
  induction d with
  | nil => simp [dictSet, dictGet]
  | cons p rest ih =>
      by_cases h : p.1 = k
      · simp [dictSet, dictGet, h]
      · simp [dictSet, dictGet, h, ih]

theorem dictGet_set_ne (d : Fields) (k k' : String) (v : Val) (h : k' ≠ k) :
    dictGet (dictSet d k' v) k = dictGet d k := by
  induction d with
  | nil => simp [dictSet, dictGet, h]
  | cons p rest ih =>
      by_cases hp : p.1 = k'
      · simp [dictSet, dictGet, hp, h]
      · simp [dictSet, dictGet, hp, ih]

theorem dictGetStr_set_self (d : Fields) (k s : String) :
    dictGetStr (dictSet d k (Val.str s)) k = s := by
  simp [dictGetStr, dictGet_set_self]

theorem kwHasKey_set_of_ne (d : Fields) (k : String) (v : Val) (k' : String)
    (h : kwHasKey d k' = false) (hne : k' ≠ k) :
    kwHasKey (dictSet d k v) k' = false := by
  induction d with
  | nil => simp [dictSet, kwHasKey, Ne.symm hne]
  | cons p rest ih =>
      simp only [kwHasKey, List.any_cons, Bool.or_eq_false_iff] at h
      obtain ⟨h1, h2⟩ := h
      by_cases hp : p.1 = k
      · simp [dictSet, hp, kwHasKey, List.any_cons, Ne.symm hne, h2]
      · simp only [dictSet, hp, if_false, kwHasKey, List.any_cons] at *
        simp [h1, ih h2]

theorem dictGet_update (ev d : Fields) (k : String) :
    dictGet (dictUpdate d ev) k = updGet ev k (dictGet d k) := by
  induction ev generalizing d with
  | nil => rfl
  | cons p rest ih =>
      obtain ⟨k', v'⟩ := p
      by_cases h : k' = k
      · subst h
        simp [dictUpdate, updGet, ih, dictGet_set_self]
      · simp [dictUpdate, updGet, ih, dictGet_set_ne _ _ _ _ h, h]

theorem updGet_of_not_has (ev : Fields) (k : String) (acc : Option Val)
    (h : kwHasKey ev k = false) : updGet ev k acc = acc := by
  induction ev generalizing acc with
  | nil => rfl
  | cons p rest ih =>
      simp only [kwHasKey, List.any_cons, Bool.or_eq_false_iff] at h
      obtain ⟨h1, h2⟩ := h
      have hne : p.1 ≠ k := by simpa using h1
      simp [updGet, hne, ih _ h2]

theorem updGet_cons_self (k : String) (v : Val) (rest : Fields)
    (acc : Option Val) (h : kwHasKey rest k = false) :
    updGet ((k, v) :: rest) k acc = some v := by
  simp [updGet, updGet_of_not_has rest k _ h]

theorem dictGet_eq_none_of_not_has (d : Fields) (k : String)
    (h : kwHasKey d k = false) : dictGet d k = none := by
  induction d with
  | nil => rfl
  | cons p rest ih =>
      simp only [kwHasKey, List.any_cons, Bool.or_eq_false_iff] at h
      obtain ⟨h1, h2⟩ := h
      have hne : p.1 ≠ k := by simpa using h1
      simp [dictGet, hne, ih h2]

theorem dictRemove_get_self (d : Fields) (k : String) :
    dictGet (dictRemove d k) k = none := by
  induction d with
  | nil => rfl
  | cons p rest ih =>
      by_cases h : p.1 = k
      · simp [dictRemove, h, ih]
      · simp [dictRemove, dictGet, h, ih]

theorem dictRemove_eq_self (d : Fields) (k : String)
    (h : dictGet d k = none) : dictRemove d k = d := by
  induction d with
  | nil => rfl
  | cons p rest ih =>
      by_cases hp : p.1 = k
      · simp [dictGet, hp] at h
      · simp only [dictGet, hp, if_false] at h
        simp [dictRemove, hp, ih h]

/-! ### Pipeline lemmas -/

/-- The two installed pipelines agree with the shared pre-processing chain
followed by the renderer stage: the run merges the ambient context (event
fields winning), attaches the level, drops when the level is excluded,
else attaches the timestamp and renders. -/
theorem runProcs_processorsFor (env : Env) (excl : Option (List String))
    (ctx : Fields) (method fmt : String) (d : Fields) :
    runProcs env excl ctx method (processorsFor fmt) d =
      (if callDropped (get_exclude_levels env excl) method then none
       else some (mkRendered fmt
         (dictSet (dictSet (dictUpdate ctx d)
             "level" (Val.str (methodToLevel method)))
           "timestamp" (Val.str env.now)))) := by
  unfold processorsFor consoleProcessors jsonProcessors sharedProcessors
  by_cases h : fmt = "console" <;>
    simp [h, runProcs, mkRendered, callDropped, dictGetStr_set_self]

theorem configure_output (env : Env) (f : Option String)
    (e : Option (List String)) (s : LogState) :
    (configure env f e s).output = s.output := rfl

theorem configure_context (env : Env) (f : Option String)
    (e : Option (List String)) (s : LogState) :
    (configure env f e s).context = s.context := rfl

theorem ensure_configured_output (env : Env) (s : LogState) :
    (ensure_configured env s).output = s.output := by
  unfold ensure_configured
  split <;> rfl

theorem ensure_configured_context (env : Env) (s : LogState) :
    (ensure_configured env s).context = s.context := by
  unfold ensure_configured
  split <;> rfl

theorem ensure_configured_of_configured (env : Env) (s : LogState)
    (h : s.configured = true) : ensure_configured env s = s := by
  simp [ensure_configured, h]

/-- Emission on a state whose pipeline was installed for `fmt`: either the
level is excluded at emission time and nothing is printed, or exactly one
rendered line is appended. -/
theorem emitConfigured_eq (env : Env) (method msg : String) (kw : Fields)
    (s : LogState) (fmt : String) (hp : s.pipeline = processorsFor fmt) :
    emitConfigured env method msg kw s =
      (if callDropped (get_exclude_levels env s.excludeLevels) method then s
       else { s with output := s.output ++
                [renderOf env fmt s.context method msg kw] }) := by
  simp only [emitConfigured, hp, runProcs_processorsFor, renderOf]
  by_cases hc : callDropped (get_exclude_levels env s.excludeLevels) method <;>
    simp [hc]

theorem configure_configured (env : Env) (f : Option String)
    (e : Option (List String)) (s : LogState) :
    (configure env f e s).configured = true := rfl

theorem ensure_configured_configured (env : Env) (s : LogState) :
    (ensure_configured env s).configured = true := by
  unfold ensure_configured
  split
  · assumption
  · rfl

theorem ensure_configured_of_not (env : Env) (s : LogState)
    (h : s.configured = false) :
    ensure_configured env s = configure env none none s := by
  simp [ensure_configured, h]

/-- A helper call raises `TypeError` exactly when the caller keywords
collide with the helper's `msg` parameter, the bound method's `self` or
`event` parameters, or the helper's fixed tag key. -/
theorem helperCall_raised_eq (env : Env) (tag : Option (String × String))
    (method msg : String) (kw : Fields) (s : LogState) :
    (helperCall env tag method msg kw s).raised =
      (kwHasKey kw "msg" || boundMethodCollides kw ||
        (match tag with | some (k, _) => kwHasKey kw k | none => false)) := by
  cases tag with
  | none =>
      cases hm : kwHasKey kw "msg" <;> cases hb : boundMethodCollides kw <;>
        simp [helperCall, hm, hb]
  | some p =>
      obtain ⟨k, v⟩ := p
      cases hm : kwHasKey kw "msg" <;> cases hb : boundMethodCollides kw <;>
        cases ht : kwHasKey kw k <;> simp [helperCall, hm, hb, ht]

/-- A helper call that raises emits nothing. -/
theorem helperCall_raised_output (env : Env) (tag : Option (String × String))
    (method msg : String) (kw : Fields) (s : LogState)
    (h : (helperCall env tag method msg kw s).raised = true) :
    (helperCall env tag method msg kw s).state.output = s.output := by
  cases tag with
  | none =>
      cases hm : kwHasKey kw "msg" <;> cases hb : boundMethodCollides kw <;>
        simp_all [helperCall, hm, hb, ensure_configured_output]
  | some p =>
      obtain ⟨k, v⟩ := p
      cases hm : kwHasKey kw "msg" <;> cases hb : boundMethodCollides kw <;>
        cases ht : kwHasKey kw k <;>
          simp_all [helperCall, hm, hb, ht, ensure_configured_output]

/-- A collision-free helper call configures if needed and emits the tagged
event. -/
theorem helperCall_emit_eq (env : Env) (tag : Option (String × String))
    (method msg : String) (kw : Fields) (s : LogState)
    (hm : kwHasKey kw "msg" = false) (hb : boundMethodCollides kw = false)
    (ht : (match tag with
           | some (k, _) => kwHasKey kw k
           | none => false) = false) :
    helperCall env tag method msg kw s =
      { state := emitConfigured env method msg
          (match tag with
           | some (k, v) => (k, Val.str v) :: kw
           | none => kw) (ensure_configured env s),
        raised := false } := by
  cases tag with
  | none => simp [helperCall, hm, hb]
  | some p =>
      obtain ⟨k, v⟩ := p
      simp only at ht
      simp [helperCall, hm, hb, ht]

/-- Performing a collision-free helper call on an unconfigured state is
the same as first configuring with defaults. -/
theorem helperCall_unconfigured (env : Env) (tag : Option (String × String))
    (method msg : String) (kw : Fields) (s : LogState)
    (h : s.configured = false) (hm : kwHasKey kw "msg" = false) :
    helperCall env tag method msg kw s =
      helperCall env tag method msg kw (configure env none none s) := by
  simp [helperCall, hm, ensure_configured, h, configure_configured]

theorem loggerMethodCall_unconfigured (env : Env) (method msg : String)
    (kw : Fields) (s : LogState) (h : s.configured = false) :
    loggerMethodCall env method msg kw s =
      loggerMethodCall env method msg kw (configure env none none s) := by
  simp [loggerMethodCall, ensure_configured, h, configure_configured]

theorem updGet_set_of_ne (d : Fields) (kset k : String) (val : Val)
    (acc : Option Val) (h : k ≠ kset) :
    updGet (dictSet d kset val) k acc = updGet d k acc := by
  induction d generalizing acc with
  | nil => simp [dictSet, updGet, Ne.symm h]
  | cons p rest ih =>
      by_cases hp : p.1 = kset
      · simp [dictSet, hp, updGet, Ne.symm h]
      · simp [dictSet, hp, updGet, ih]

theorem updGet_set_self_of_not_has (d : Fields) (k : String) (val : Val)
    (acc : Option Val) (h : kwHasKey d k = false) :
    updGet (dictSet d k val) k acc = some val := by
  induction d generalizing acc with
  | nil => simp [dictSet, updGet]
  | cons p rest ih =>
      simp only [kwHasKey, List.any_cons, Bool.or_eq_false_iff] at h
      obtain ⟨h1, h2⟩ := h
      have hne : p.1 ≠ k := by simpa using h1
      simp [dictSet, hne, updGet, ih _ h2]

theorem emitConfigured_configured (env : Env) (method msg : String)
    (kw : Fields) (s : LogState) :
    (emitConfigured env method msg kw s).configured = s.configured := by
  unfold emitConfigured
  cases runProcs env s.excludeLevels s.context method s.pipeline
      (dictSet kw "event" (Val.str msg)) <;> simp

theorem emitConfigured_context (env : Env) (method msg : String)
    (kw : Fields) (s : LogState) :
    (emitConfigured env method msg kw s).context = s.context := by
  unfold emitConfigured
  cases runProcs env s.excludeLevels s.context method s.pipeline
      (dictSet kw "event" (Val.str msg)) <;> simp

theorem emitConfigured_pipeline (env : Env) (method msg : String)
    (kw : Fields) (s : LogState) :
    (emitConfigured env method msg kw s).pipeline = s.pipeline := by
  unfold emitConfigured
  cases runProcs env s.excludeLevels s.context method s.pipeline
      (dictSet kw "event" (Val.str msg)) <;> simp

theorem emitConfigured_excludeLevels (env : Env) (method msg : String)
    (kw : Fields) (s : LogState) :
    (emitConfigured env method msg kw s).excludeLevels = s.excludeLevels := by
  unfold emitConfigured
  cases runProcs env s.excludeLevels s.context method s.pipeline
      (dictSet kw "event" (Val.str msg)) <;> simp

theorem processorsFor_good (fmt : String) :
    processorsFor fmt = consoleProcessors ∨ processorsFor fmt = jsonProcessors := by
  by_cases h : fmt = "console" <;> simp [processorsFor, h]

theorem processorsFor_json : processorsFor "json" = jsonProcessors := by decide

theorem processorsFor_console : processorsFor "console" = consoleProcessors := rfl

theorem ensure_configured_pipeline_good (env : Env) (s : LogState)
    (hs : goodPipeline s) :
    (ensure_configured env s).pipeline = consoleProcessors ∨
      (ensure_configured env s).pipeline = jsonProcessors := by
  by_cases hc : s.configured
  · rw [ensure_configured_of_configured env s hc]
    rcases hs with h | h | h
    · rw [hc] at h
      cases h
    · exact Or.inl h
    · exact Or.inr h
  · rw [ensure_configured_of_not env s (by simpa using hc)]
    exact processorsFor_good _

theorem ensure_configured_processorsFor (env : Env) (s : LogState)
    (hs : goodPipeline s) :
    ∃ fmt, (ensure_configured env s).pipeline = processorsFor fmt := by
  rcases ensure_configured_pipeline_good env s hs with h | h
  · exact ⟨"console", by rw [h, processorsFor_console]⟩
  · exact ⟨"json", by rw [h, processorsFor_json]⟩

theorem newOutput_of_eq (s : LogState) (r : CallResult)
    (h : r.state.output = s.output) : newOutput s r = [] := by
  simp [newOutput, h, List.drop_length]

theorem newOutput_of_append (s : LogState) (r : CallResult) (x : Rendered)
    (h : r.state.output = s.output ++ [x]) : newOutput s r = [x] := by
  simp [newOutput, h, List.drop_left]

/-- Looking up a non-`level`, non-`timestamp` key in a rendered line comes
down to the merge of the ambient context with the event fields. -/
theorem renderOf_get (env : Env) (fmt : String) (ctx : Fields)
    (method msg : String) (kw : Fields) (k : String)
    (hkL : k ≠ "level") (hkT : k ≠ "timestamp") :
    dictGet (renderOf env fmt ctx method msg kw).fields k =
      updGet (dictSet kw "event" (Val.str msg)) k (dictGet ctx k) := by
  unfold renderOf mkRendered
  by_cases hf : fmt = "console" <;>
    simp [hf, Rendered.fields, dictGet_set_ne _ _ _ _ (Ne.symm hkT),
      dictGet_set_ne _ _ _ _ (Ne.symm hkL), dictGet_update]

theorem renderOf_get_level (env : Env) (fmt : String) (ctx : Fields)
    (method msg : String) (kw : Fields) :
    dictGet (renderOf env fmt ctx method msg kw).fields "level" =
      some (Val.str (methodToLevel method)) := by
  unfold renderOf mkRendered
  have hne : ("level" : String) ≠ "timestamp" := by decide
  by_cases hf : fmt = "console" <;>
    simp [hf, Rendered.fields, dictGet_set_ne _ _ _ _ (Ne.symm hne),
      dictGet_set_self]

theorem renderOf_get_timestamp (env : Env) (fmt : String) (ctx : Fields)
    (method msg : String) (kw : Fields) :
    dictGet (renderOf env fmt ctx method msg kw).fields "timestamp" =
      some (Val.str env.now) := by
  unfold renderOf mkRendered
  by_cases hf : fmt = "console" <;> simp [hf, Rendered.fields, dictGet_set_self]

/-- Running any processor chain does not read the format or exclude
environment keys when the exclusion set was explicitly configured; only
the timestamp depends on the environment. -/
theorem runProcs_env_indep (env env2 : Env) (E : List String) (ctx : Fields)
    (method : String) (P : List ProcStep) (d : Fields)
    (hNow : env.now = env2.now) :
    runProcs env (some E) ctx method P d = runProcs env2 (some E) ctx method P d := by
  induction P generalizing d with
  | nil => rfl
  | cons p rest ih =>
      cases p <;> simp [runProcs, get_exclude_levels, hNow, ih]

theorem emitConfigured_env_indep (env env2 : Env) (method msg : String)
    (kw : Fields) (s : LogState) (E : List String)
    (hE : s.excludeLevels = some E) (hNow : env.now = env2.now) :
    emitConfigured env method msg kw s = emitConfigured env2 method msg kw s := by
  unfold emitConfigured
  rw [hE, runProcs_env_indep env env2 E _ _ _ _ hNow]

theorem helperCall_configured (env : Env) (tag : Option (String × String))
    (method msg : String) (kw : Fields) (s : LogState)
    (hm : kwHasKey kw "msg" = false) :
    (helperCall env tag method msg kw s).state.configured = true := by
  cases tag with
  | none =>
      cases hb : boundMethodCollides kw <;>
        simp [helperCall, hm, hb, ensure_configured_configured,
          emitConfigured_configured]
  | some p =>
      obtain ⟨k, v⟩ := p
      cases hb : boundMethodCollides kw <;> cases ht : kwHasKey kw k <;>
        simp [helperCall, hm, hb, ht, ensure_configured_configured,
          emitConfigured_configured]

theorem loggerMethodCall_configured (env : Env) (method msg : String)
    (kw : Fields) (s : LogState) :
    (loggerMethodCall env method msg kw s).state.configured = true := by
  cases hb : boundMethodCollides kw <;>
    simp [loggerMethodCall, hb, ensure_configured_configured,
      emitConfigured_configured]

/-! ### Claims -/

/-- C3: every emitted event passes through the same pre-processing
pipeline in the fixed order context-merge, level, exclusion filter,
ISO-timestamp, extra static fields, renderer; the exclusion filter drops
the event and short-circuits everything after it (for any continuation of
the chain), and a retained event reaches the renderer with context merged,
level and timestamp attached, in both console and JSON mode. -/
theorem C3_pipeline_fixed_order :
    (processorsFor "console" =
      [ProcStep.mergeContextvars, ProcStep.addLogLevel, ProcStep.filterByLevel,
       ProcStep.timeStamper, ProcStep.extraAdder, ProcStep.consoleRenderer])
  ∧ (∀ fmt : String, fmt ≠ "console" →
      processorsFor fmt =
        [ProcStep.mergeContextvars, ProcStep.addLogLevel, ProcStep.filterByLevel,
         ProcStep.timeStamper, ProcStep.extraAdder, ProcStep.dictTracebacks,
         ProcStep.jsonRenderer])
  ∧ (∀ (env : Env) (excl : Option (List String)) (ctx : Fields)
        (method : String) (rest : List ProcStep) (d : Fields),
      callDropped (get_exclude_levels env excl) method = true →
      runProcs env excl ctx method (sharedProcessors ++ rest) d = none)
  ∧ (∀ (env : Env) (excl : Option (List String)) (ctx : Fields)
        (method fmt : String) (d : Fields),
      callDropped (get_exclude_levels env excl) method = false →
      runProcs env excl ctx method (processorsFor fmt) d =
        some (mkRendered fmt
          (dictSet (dictSet (dictUpdate ctx d)
              "level" (Val.str (methodToLevel method)))
            "timestamp" (Val.str env.now)))) := by
  refine ⟨rfl, ?_, ?_, ?_⟩
  · intro fmt h
    simp [processorsFor, h, jsonProcessors, sharedProcessors]
  · intro env excl ctx method rest d h
    simp only [callDropped] at h
    simp only [sharedProcessors, List.cons_append, List.nil_append, runProcs,
      dictGetStr_set_self]
    rw [h]
    simp
  · intro env excl ctx method fmt d h
    simp [runProcs_processorsFor, h]

/-- Witness for C3 at concrete inputs: the JSON pipeline order, a dropped
debug emission short-circuiting an arbitrary continuation, and a retained
info emission reaching the JSON renderer with level and timestamp. -/
theorem C3_pipeline_fixed_order_witness :
    (processorsFor "json" =
      [ProcStep.mergeContextvars, ProcStep.addLogLevel, ProcStep.filterByLevel,
       ProcStep.timeStamper, ProcStep.extraAdder, ProcStep.dictTracebacks,
       ProcStep.jsonRenderer])
  ∧ runProcs (Env.mk none none "T") (some ["debug"]) [] "debug"
      (sharedProcessors ++ [ProcStep.timeStamper, ProcStep.jsonRenderer]) [] = none
  ∧ runProcs (Env.mk none none "T") (some ["debug"]) [] "info"
      (processorsFor "json") [] =
      some (mkRendered "json"
        (dictSet (dictSet (dictUpdate [] [])
            "level" (Val.str (methodToLevel "info")))
          "timestamp" (Val.str (Env.mk none none "T").now))) :=
  ⟨C3_pipeline_fixed_order.2.1 "json" (by decide),
   C3_pipeline_fixed_order.2.2.1 (Env.mk none none "T") (some ["debug"]) [] "debug"
     [ProcStep.timeStamper, ProcStep.jsonRenderer] [] (by decide),
   C3_pipeline_fixed_order.2.2.2 (Env.mk none none "T") (some ["debug"]) [] "info"
     "json" [] (by decide)⟩

/-- C6: `configure` never rejects a format value: the explicit value is
lowercased and stored, `"console"` (after lowercasing) selects the console
renderer pipeline and every other value selects the JSON renderer
pipeline; the literal strings are accepted case-insensitively. The
modelled `configure` is a total function, so no format value can make it
fail. -/
theorem C6_format_never_fails (env : Env) (s : LogState) (f : String)
    (e : Option (List String)) :
    (configure env (some f) e s).configured = true
  ∧ (configure env (some f) e s).logFormat = some (pyLower f)
  ∧ (configure env (some f) e s).pipeline =
      (if pyLower f = "console" then consoleProcessors else jsonProcessors)
  ∧ configure env (some "CONSOLE") e s = configure env (some "console") e s
  ∧ configure env (some "Json") e s = configure env (some "json") e s
  ∧ (configure env (some "json") e s).pipeline = jsonProcessors
  ∧ (configure env (some "xml") e s).pipeline = jsonProcessors := by
  have hcu : pyLower "CONSOLE" = "console" := by decide
  have hcl : pyLower "console" = "console" := by decide
  have hju : pyLower "Json" = "json" := by decide
  have hjl : pyLower "json" = "json" := by decide
  have hxl : pyLower "xml" = "xml" := by decide
  refine ⟨rfl, rfl, ?_, ?_, ?_, ?_, ?_⟩
  · simp [configure, get_format, processorsFor]
  · simp [configure, get_format, hcu, hcl]
  · simp [configure, get_format, hju, hjl]
  · simp [configure, get_format, processorsFor, hjl]
  · simp [configure, get_format, processorsFor, hxl]

/-- C8: parsing of the excluded-levels environment value: absence of the
key or an empty value yields no exclusions, and otherwise a level is in
the parsed set exactly when some comma-separated entry of the value, after
stripping surrounding whitespace, is nonempty and lowercases to that
level. -/
theorem C8_exclude_env_parsing (fmt : Option String) (now : String) :
    get_exclude_levels (Env.mk fmt none now) none = []
  ∧ get_exclude_levels (Env.mk fmt (some "") now) none = []
  ∧ ∀ (s lev : String),
      lev ∈ get_exclude_levels (Env.mk fmt (some s) now) none ↔
        ∃ entry ∈ pySplit s ',', pyStrip entry ≠ "" ∧ pyLower (pyStrip entry) = lev := by
  refine ⟨rfl, rfl, ?_⟩
  intro s lev
  by_cases hs : s = ""
  · subst hs
    have h1 : pySplit "" ',' = [""] := rfl
    have h2 : pyStrip "" = "" := rfl
    simp [get_exclude_levels, h1, h2]
  · simp only [get_exclude_levels, Option.getD, hs, if_false]
    simp only [parseExcludeStr, List.mem_filterMap]
    constructor
    · rintro ⟨entry, hmem, hf⟩
      by_cases h : pyStrip entry = ""
      · simp [h] at hf
      · simp only [h, if_false] at hf
        exact ⟨entry, hmem, h, by simpa using hf⟩
    · rintro ⟨entry, hmem, h, hf⟩
      exact ⟨entry, hmem, by simp [h, hf]⟩

/-- Counterexample to C2: with `MYLOGGER_FORMAT` absent, configuring
explicitly with `"json"` and then calling `configure` again with the
format omitted does not fall back to the environment default `"console"`:
the sticky `_log_format` global keeps the earlier explicit value and the
JSON pipeline stays installed. -/
theorem C2_counterexample :
    (configure (Env.mk none none "T") none none
        (configure (Env.mk none none "T") (some "json") none initState)).logFormat
      = some "json"
  ∧ (configure (Env.mk none none "T") none none
        (configure (Env.mk none none "T") (some "json") none initState)).pipeline
      = jsonProcessors
  ∧ jsonProcessors ≠ consoleProcessors := by
  refine ⟨by decide, by decide, by decide⟩

/-- C2 (amended): explicit `configure` arguments override and are
remembered (lowercased); an omitted argument falls back to the
environment-sourced default only when it was never explicitly set — on a
fresh state an omitted format resolves from `MYLOGGER_FORMAT` (defaulting
to `"console"` when absent) and an omitted exclusion leaves the cached set
unset so the effective exclusions come from `MYLOGGER_EXCLUDE` (empty when
absent); a repeated `configure` with an omitted argument retains the
previously set explicit value instead of re-reading the environment. -/
theorem C2_configure_resolution (env : Env) (s : LogState) (f g : String)
    (e E : List String) (fEnv exEnv : Option String) (fArg : Option String)
    (eArg : Option (List String)) (now : String) :
    (configure env (some f) (some e) s).logFormat = some (pyLower f)
  ∧ (configure env (some f) (some e) s).excludeLevels = some (e.map pyLower)
  ∧ (configure env (some f) (some e) s).pipeline = processorsFor (pyLower f)
  ∧ (configure (Env.mk none exEnv now) none eArg initState).pipeline
      = consoleProcessors
  ∧ (configure (Env.mk (some f) exEnv now) none eArg initState).pipeline
      = processorsFor (pyLower f)
  ∧ (configure env fArg none initState).excludeLevels = none
  ∧ get_exclude_levels (Env.mk fEnv none now) none = []
  ∧ (s.logFormat = some g →
      (configure env none eArg s).logFormat = some g
      ∧ (configure env none eArg s).pipeline = processorsFor g)
  ∧ (s.excludeLevels = some E →
      (configure env fArg none s).excludeLevels = some E) := by
  have hpc : pyLower "console" = "console" := by decide
  refine ⟨?_, ?_, ?_, ?_, ?_, ?_, rfl, ?_, ?_⟩
  · simp [configure]
  · simp [configure]
  · simp [configure, get_format]
  · simp [configure, get_format, initState, processorsFor, hpc]
  · simp [configure, get_format, initState]
  · cases fArg <;> simp [configure, initState]
  · intro h
    exact ⟨by simp [configure, h], by simp [configure, get_format, h]⟩
  · intro h
    cases fArg <;> simp [configure, h]

/-- Witness for C2 (amended) at concrete inputs: after an explicit
`configure(format="json", exclude=["Debug"])`, a second `configure` with
both arguments omitted keeps the lowercased explicit values. -/
theorem C2_configure_resolution_witness :
    ((configure (Env.mk none none "T") none none
        (configure (Env.mk none none "T") (some "json") (some ["Debug"])
          initState)).logFormat = some "json"
     ∧ (configure (Env.mk none none "T") none none
        (configure (Env.mk none none "T") (some "json") (some ["Debug"])
          initState)).pipeline = processorsFor "json")
  ∧ (configure (Env.mk none none "T") none none
        (configure (Env.mk none none "T") (some "json") (some ["Debug"])
          initState)).excludeLevels = some ["debug"] :=
  ⟨(C2_configure_resolution (Env.mk none none "T")
      (configure (Env.mk none none "T") (some "json") (some ["Debug"]) initState)
      "x" "json" [] ["debug"] none none none none "T").2.2.2.2.2.2.2.1 (by decide),
   (C2_configure_resolution (Env.mk none none "T")
      (configure (Env.mk none none "T") (some "json") (some ["Debug"]) initState)
      "x" "json" [] ["debug"] none none none none "T").2.2.2.2.2.2.2.2 (by decide)⟩

theorem helperCall_env_indep (env env2 : Env) (tag : Option (String × String))
    (method msg : String) (kw : Fields) (s : LogState) (E : List String)
    (hc : s.configured = true) (hE : s.excludeLevels = some E)
    (hNow : env.now = env2.now) :
    helperCall env tag method msg kw s = helperCall env2 tag method msg kw s := by
  cases tag with
  | none =>
      cases hm : kwHasKey kw "msg" <;> cases hb : boundMethodCollides kw <;>
        simp [helperCall, hm, hb, ensure_configured_of_configured _ _ hc,
          emitConfigured_env_indep env env2 method msg kw s E hE hNow]
  | some p =>
      obtain ⟨k, v⟩ := p
      cases hm : kwHasKey kw "msg" <;> cases hb : boundMethodCollides kw <;>
        cases ht : kwHasKey kw k <;>
          simp [helperCall, hm, hb, ht, ensure_configured_of_configured _ _ hc,
            emitConfigured_env_indep env env2 method msg ((k, Val.str v) :: kw)
              s E hE hNow]

theorem loggerMethodCall_env_indep (env env2 : Env) (method msg : String)
    (kw : Fields) (s : LogState) (E : List String)
    (hc : s.configured = true) (hE : s.excludeLevels = some E)
    (hNow : env.now = env2.now) :
    loggerMethodCall env method msg kw s = loggerMethodCall env2 method msg kw s := by
  cases hb : boundMethodCollides kw <;>
    simp [loggerMethodCall, hb, ensure_configured_of_configured _ _ hc,
      emitConfigured_env_indep env env2 method msg kw s E hE hNow]

theorem contains_of_mem {l : List String} {a : String} (h : a ∈ l) :
    l.contains a = true := by
  simpa using h

theorem isEmpty_false_of_mem {l : List String} {a : String} (h : a ∈ l) :
    l.isEmpty = false := by
  cases l with
  | nil => cases h
  | cons x xs => rfl

/-- On a configured state, a sequence of `get_logger(...).method(...)`
calls prints exactly the non-excluded emissions, one line each, in call
order. -/
theorem loggerTrace_output (env : Env) (fmt : String) (E : List String)
    (calls : List (String × String × Fields)) :
    ∀ s : LogState, s.configured = true → s.pipeline = processorsFor fmt →
      s.excludeLevels = some E →
      (∀ c ∈ calls, boundMethodCollides c.2.2 = false) →
      ((calls.foldl (fun st c => (loggerMethodCall env c.1 c.2.1 c.2.2 st).state)
          s).output
        = s.output ++ ((calls.filter fun c => !callDropped E c.1).map
            fun c => renderOf env fmt s.context c.1 c.2.1 c.2.2))
      ∧ (calls.foldl (fun st c => (loggerMethodCall env c.1 c.2.1 c.2.2 st).state)
          s).context = s.context := by
  induction calls with
  | nil =>
      intro s hc hp hE hkw
      simp
  | cons c rest ih =>
      intro s hc hp hE hkw
      obtain ⟨m, msg, kw⟩ := c
      have hb : boundMethodCollides kw = false := hkw _ (List.mem_cons_self _ _)
      have hkw' : ∀ c' ∈ rest, boundMethodCollides c'.2.2 = false :=
        fun c' h => hkw c' (List.mem_cons_of_mem _ h)
      have hstep : (loggerMethodCall env m msg kw s).state =
          (if callDropped E m then s
           else { s with output :=
                    s.output ++ [renderOf env fmt s.context m msg kw] }) := by
        simp only [loggerMethodCall, hb, Bool.false_eq_true, if_false,
          ensure_configured_of_configured env s hc]
        rw [emitConfigured_eq env m msg kw s fmt hp, hE]
        simp [get_exclude_levels]
      by_cases hdrop : callDropped E m
      · have h1 : (List.foldl (fun st c => (loggerMethodCall env c.1 c.2.1 c.2.2 st).state)
            s ((m, msg, kw) :: rest)) =
            List.foldl (fun st c => (loggerMethodCall env c.1 c.2.1 c.2.2 st).state)
              s rest := by
          simp only [List.foldl_cons, hstep, hdrop, if_true]
        rw [h1]
        have := ih s hc hp hE hkw'
        simpa [List.filter_cons, hdrop] using this
      · have hdrop' : callDropped E m = false := by simpa using hdrop
        have h1 : (List.foldl (fun st c => (loggerMethodCall env c.1 c.2.1 c.2.2 st).state)
            s ((m, msg, kw) :: rest)) =
            List.foldl (fun st c => (loggerMethodCall env c.1 c.2.1 c.2.2 st).state)
              { s with output := s.output ++ [renderOf env fmt s.context m msg kw] }
              rest := by
          simp only [List.foldl_cons, hstep, hdrop', Bool.false_eq_true, if_false]
        rw [h1]
        have := ih { s with output := s.output ++ [renderOf env fmt s.context m msg kw] }
          hc hp hE hkw'
        simp only at this
        obtain ⟨hout, hctx⟩ := this
        refine ⟨?_, hctx⟩
        rw [hout]
        simp [List.filter_cons, hdrop', List.append_assoc]

/-- C4: after configuring with an exclusion set, the trace of
`get_logger` emissions prints exactly the calls whose (lowercased) level
is not in the (lowercased) exclusion set, one line each, in call order;
and on any matching configured state, a single emission at an excluded
level L prints nothing. -/
theorem C4_level_exclusion (env : Env) (f L : String) (excl : List String)
    (calls : List (String × String × Fields))
    (hL : L ∈ excl.map pyLower)
    (hkw : ∀ c ∈ calls, boundMethodCollides c.2.2 = false) :
    ((calls.foldl (fun st c => (loggerMethodCall env c.1 c.2.1 c.2.2 st).state)
        (configure env (some f) (some excl) initState)).output
      = ((calls.filter fun c =>
            !(excl.map pyLower).contains (pyLower (methodToLevel c.1))).map
          fun c => renderOf env (pyLower f) [] c.1 c.2.1 c.2.2))
  ∧ (∀ (m msg : String) (kw : Fields) (s : LogState),
      s.configured = true → s.pipeline = processorsFor (pyLower f) →
      s.excludeLevels = some (excl.map pyLower) →
      pyLower (methodToLevel m) = L →
      (loggerMethodCall env m msg kw s).state.output = s.output) := by
  have hEemp : (excl.map pyLower).isEmpty = false := isEmpty_false_of_mem hL
  constructor
  · have hc : (configure env (some f) (some excl) initState).configured = true := rfl
    have hp : (configure env (some f) (some excl) initState).pipeline =
        processorsFor (pyLower f) := by
      simp [configure, get_format]
    have hE : (configure env (some f) (some excl) initState).excludeLevels =
        some (excl.map pyLower) := by
      simp [configure]
    have h := (loggerTrace_output env (pyLower f) (excl.map pyLower) calls
      (configure env (some f) (some excl) initState) hc hp hE hkw).1
    have hctx : (configure env (some f) (some excl) initState).context = [] := rfl
    have hout : (configure env (some f) (some excl) initState).output = [] := rfl
    rw [hctx, hout] at h
    rw [h]
    have hfilter : (calls.filter fun c => !callDropped (excl.map pyLower) c.1)
        = calls.filter fun c =>
            !(excl.map pyLower).contains (pyLower (methodToLevel c.1)) := by
      apply List.filter_congr
      intro c _
      simp [callDropped, hEemp]
    rw [hfilter]
    simp
  · intro m msg kw s hc hp hE hLev
    by_cases hb : boundMethodCollides kw
    · simp only [loggerMethodCall, hb, if_true]
      exact ensure_configured_output env s
    · have hb' : boundMethodCollides kw = false := by simpa using hb
      simp only [loggerMethodCall, hb', Bool.false_eq_true, if_false,
        ensure_configured_of_configured env s hc]
      rw [emitConfigured_eq env m msg kw s (pyLower f) hp, hE]
      have hcontains : (excl.map pyLower).contains (pyLower (methodToLevel m)) = true := by
        rw [hLev]
        exact contains_of_mem hL
      have hge : get_exclude_levels env (some (excl.map pyLower)) = excl.map pyLower := rfl
      rw [hge]
      have hcond : callDropped (excl.map pyLower) m = true := by
        unfold callDropped
        rw [hEemp, hcontains]
        rfl
      rw [hcond]
      simp

/-- Witness for C4 at concrete inputs: with `exclude=["DEBUG"]`, a debug
emission then an info emission produce exactly the info line, and the
debug emission alone prints nothing. -/
theorem C4_level_exclusion_witness :
    (([("debug", "x", ([] : Fields)), ("info", "y", ([] : Fields))].foldl
        (fun st c =>
          (loggerMethodCall (Env.mk none none "T") c.1 c.2.1 c.2.2 st).state)
        (configure (Env.mk none none "T") (some "json") (some ["DEBUG"])
          initState)).output
      = [Rendered.json [("event", Val.str "y"), ("level", Val.str "info"),
          ("timestamp", Val.str "T")]])
  ∧ (loggerMethodCall (Env.mk none none "T") "debug" "x" []
      (configure (Env.mk none none "T") (some "json") (some ["DEBUG"])
        initState)).state.output
      = (configure (Env.mk none none "T") (some "json") (some ["DEBUG"])
          initState).output := by
  have h := C4_level_exclusion (Env.mk none none "T") "json" "debug" ["DEBUG"]
    [("debug", "x", ([] : Fields)), ("info", "y", ([] : Fields))]
    (by decide) (by decide)
  exact ⟨h.1.trans (by decide),
    h.2 "debug" "x" [] (configure (Env.mk none none "T") (some "json")
      (some ["DEBUG"]) initState) (by decide) (by decide) (by decide) (by decide)⟩

/-- Counterexample to C5: after an explicit `configure()` under an
environment with no exclusions, a later `log_info` call behaves
differently depending on the `MYLOGGER_EXCLUDE` environment value at
emission time — the filter re-reads the environment on every emission when
the exclusion set was never explicitly set, so the configuration is not
"reused without re-reading environment sources". -/
theorem C5_counterexample :
    (configure (Env.mk none none "T") none none initState).configured = true
  ∧ (log_info (Env.mk none (some "info") "T") "m" []
      (configure (Env.mk none none "T") none none initState)).state.output = []
  ∧ (log_info (Env.mk none none "T") "m" []
      (configure (Env.mk none none "T") none none initState)).state.output ≠ [] := by
  refine ⟨by decide, by decide, by decide⟩

/-- C5 (amended): every log-emitting or logger-creating operation ensures
configuration first — performed when unconfigured (and not raising at its
own call boundary) it behaves exactly as configuring with defaults and
then running, so no emission happens through an unconfigured pipeline;
once configured, explicitly-set values are reused: with an explicitly set
exclusion set, emission does not read the format or exclude environment
keys at all (only the clock). When the exclusion set was never explicitly
set it is re-read from the environment at each emission
(`C5_counterexample`). -/
theorem C5_configure_on_first_use (env env2 : Env) (op : Op) (s : LogState)
    (E : List String) :
    (configuresOnUse op = true → opMsgClean op = true →
      (step env op s).configured = true)
  ∧ (s.configured = false → isEmitting op = true → opMsgClean op = true →
      step env op s = step env op (configure env none none s))
  ∧ (s.configured = true → s.excludeLevels = some E → isEmitting op = true →
      env.now = env2.now → step env op s = step env2 op s) := by
  refine ⟨?_, ?_, ?_⟩
  · intro hC hM
    cases op with
    | configure f e => exact absurd hC (by simp [configuresOnUse])
    | getLogger n => exact ensure_configured_configured env s
    | loggerLog m msg kw => exact loggerMethodCall_configured env m msg kw s
    | logSuccess msg kw =>
        exact helperCall_configured _ _ _ _ _ _ (by simpa [opMsgClean] using hM)
    | logError msg kw =>
        exact helperCall_configured _ _ _ _ _ _ (by simpa [opMsgClean] using hM)
    | logWarning msg kw =>
        exact helperCall_configured _ _ _ _ _ _ (by simpa [opMsgClean] using hM)
    | logInfo msg kw =>
        exact helperCall_configured _ _ _ _ _ _ (by simpa [opMsgClean] using hM)
    | logStart msg kw =>
        exact helperCall_configured _ _ _ _ _ _ (by simpa [opMsgClean] using hM)
    | logEnd msg kw =>
        exact helperCall_configured _ _ _ _ _ _ (by simpa [opMsgClean] using hM)
    | logDb msg kw =>
        exact helperCall_configured _ _ _ _ _ _ (by simpa [opMsgClean] using hM)
    | logProgress msg kw =>
        exact helperCall_configured _ _ _ _ _ _ (by simpa [opMsgClean] using hM)
    | logCompletion msg kw =>
        exact helperCall_configured _ _ _ _ _ _ (by simpa [opMsgClean] using hM)
    | logExtract msg kw =>
        exact helperCall_configured _ _ _ _ _ _ (by simpa [opMsgClean] using hM)
    | logInput msg kw =>
        exact helperCall_configured _ _ _ _ _ _ (by simpa [opMsgClean] using hM)
    | logOutput msg kw =>
        exact helperCall_configured _ _ _ _ _ _ (by simpa [opMsgClean] using hM)
    | bindContext kw => exact absurd hC (by simp [configuresOnUse])
    | clearContext => exact absurd hC (by simp [configuresOnUse])
    | unbindContext ks => exact absurd hC (by simp [configuresOnUse])
  · intro hU hE hM
    cases op with
    | configure f e => exact absurd hE (by simp [isEmitting])
    | getLogger n => exact absurd hE (by simp [isEmitting])
    | bindContext kw => exact absurd hE (by simp [isEmitting])
    | clearContext => exact absurd hE (by simp [isEmitting])
    | unbindContext ks => exact absurd hE (by simp [isEmitting])
    | loggerLog m msg kw =>
        exact congrArg CallResult.state
          (loggerMethodCall_unconfigured env m msg kw s hU)
    | logSuccess msg kw =>
        exact congrArg CallResult.state
          (helperCall_unconfigured env (some ("status", "success")) "info" msg kw s
            hU (by simpa [opMsgClean] using hM))
    | logError msg kw =>
        exact congrArg CallResult.state
          (helperCall_unconfigured env none "error" msg kw s hU
            (by simpa [opMsgClean] using hM))
    | logWarning msg kw =>
        exact congrArg CallResult.state
          (helperCall_unconfigured env none "warning" msg kw s hU
            (by simpa [opMsgClean] using hM))
    | logInfo msg kw =>
        exact congrArg CallResult.state
          (helperCall_unconfigured env none "info" msg kw s hU
            (by simpa [opMsgClean] using hM))
    | logStart msg kw =>
        exact congrArg CallResult.state
          (helperCall_unconfigured env (some ("phase", "start")) "info" msg kw s
            hU (by simpa [opMsgClean] using hM))
    | logEnd msg kw =>
        exact congrArg CallResult.state
          (helperCall_unconfigured env (some ("phase", "end")) "info" msg kw s
            hU (by simpa [opMsgClean] using hM))
    | logDb msg kw =>
        exact congrArg CallResult.state
          (helperCall_unconfigured env (some ("component", "database")) "info" msg
            kw s hU (by simpa [opMsgClean] using hM))
    | logProgress msg kw =>
        exact congrArg CallResult.state
          (helperCall_unconfigured env (some ("phase", "progress")) "info" msg kw
            s hU (by simpa [opMsgClean] using hM))
    | logCompletion msg kw =>
        exact congrArg CallResult.state
          (helperCall_unconfigured env (some ("phase", "complete")) "info" msg kw
            s hU (by simpa [opMsgClean] using hM))
    | logExtract msg kw =>
        exact congrArg CallResult.state
          (helperCall_unconfigured env (some ("operation", "extract")) "info" msg
            kw s hU (by simpa [opMsgClean] using hM))
    | logInput msg kw =>
        exact congrArg CallResult.state
          (helperCall_unconfigured env (some ("direction", "input")) "info" msg kw
            s hU (by simpa [opMsgClean] using hM))
    | logOutput msg kw =>
        exact congrArg CallResult.state
          (helperCall_unconfigured env (some ("direction", "output")) "info" msg
            kw s hU (by simpa [opMsgClean] using hM))
  · intro hc hE hEm hNow
    cases op with
    | configure f e => exact absurd hEm (by simp [isEmitting])
    | getLogger n => exact absurd hEm (by simp [isEmitting])
    | bindContext kw => exact absurd hEm (by simp [isEmitting])
    | clearContext => exact absurd hEm (by simp [isEmitting])
    | unbindContext ks => exact absurd hEm (by simp [isEmitting])
    | loggerLog m msg kw =>
        exact congrArg CallResult.state
          (loggerMethodCall_env_indep env env2 m msg kw s E hc hE hNow)
    | logSuccess msg kw =>
        exact congrArg CallResult.state
          (helperCall_env_indep env env2 (some ("status", "success")) "info" msg
            kw s E hc hE hNow)
    | logError msg kw =>
        exact congrArg CallResult.state
          (helperCall_env_indep env env2 none "error" msg kw s E hc hE hNow)
    | logWarning msg kw =>
        exact congrArg CallResult.state
          (helperCall_env_indep env env2 none "warning" msg kw s E hc hE hNow)
    | logInfo msg kw =>
        exact congrArg CallResult.state
          (helperCall_env_indep env env2 none "info" msg kw s E hc hE hNow)
    | logStart msg kw =>
        exact congrArg CallResult.state
          (helperCall_env_indep env env2 (some ("phase", "start")) "info" msg kw
            s E hc hE hNow)
    | logEnd msg kw =>
        exact congrArg CallResult.state
          (helperCall_env_indep env env2 (some ("phase", "end")) "info" msg kw s
            E hc hE hNow)
    | logDb msg kw =>
        exact congrArg CallResult.state
          (helperCall_env_indep env env2 (some ("component", "database")) "info"
            msg kw s E hc hE hNow)
    | logProgress msg kw =>
        exact congrArg CallResult.state
          (helperCall_env_indep env env2 (some ("phase", "progress")) "info" msg
            kw s E hc hE hNow)
    | logCompletion msg kw =>
        exact congrArg CallResult.state
          (helperCall_env_indep env env2 (some ("phase", "complete")) "info" msg
            kw s E hc hE hNow)
    | logExtract msg kw =>
        exact congrArg CallResult.state
          (helperCall_env_indep env env2 (some ("operation", "extract")) "info"
            msg kw s E hc hE hNow)
    | logInput msg kw =>
        exact congrArg CallResult.state
          (helperCall_env_indep env env2 (some ("direction", "input")) "info" msg
            kw s E hc hE hNow)
    | logOutput msg kw =>
        exact congrArg CallResult.state
          (helperCall_env_indep env env2 (some ("direction", "output")) "info"
            msg kw s E hc hE hNow)

/-- Witness for C5 (amended) at concrete inputs: a `log_info` configures,
behaves like configure-then-log on a fresh state, and with an explicitly
set exclusion set its behaviour does not depend on the format/exclude
environment keys. -/
theorem C5_configure_on_first_use_witness :
    (step (Env.mk (some "x") (some "y") "T") (Op.logInfo "m" [])
      (configure (Env.mk none none "T") (some "json") (some ["debug"])
        initState)).configured = true
  ∧ step (Env.mk none none "T") (Op.logInfo "m" []) initState =
      step (Env.mk none none "T") (Op.logInfo "m" [])
        (configure (Env.mk none none "T") none none initState)
  ∧ step (Env.mk (some "x") (some "y") "T") (Op.logInfo "m" [])
        (configure (Env.mk none none "T") (some "json") (some ["debug"])
          initState) =
      step (Env.mk none none "T") (Op.logInfo "m" [])
        (configure (Env.mk none none "T") (some "json") (some ["debug"])
          initState) :=
  ⟨(C5_configure_on_first_use (Env.mk (some "x") (some "y") "T")
      (Env.mk none none "T") (Op.logInfo "m" [])
      (configure (Env.mk none none "T") (some "json") (some ["debug"]) initState)
      ["debug"]).1 (by decide) (by decide),
   (C5_configure_on_first_use (Env.mk none none "T") (Env.mk none none "T")
      (Op.logInfo "m" []) initState []).2.1 (by decide) (by decide) (by decide),
   (C5_configure_on_first_use (Env.mk (some "x") (some "y") "T")
      (Env.mk none none "T") (Op.logInfo "m" [])
      (configure (Env.mk none none "T") (some "json") (some ["debug"]) initState)
      ["debug"]).2.2 (by decide) (by decide) (by decide) (by decide)⟩

/-- Every line a tagged helper call appends carries the helper's fixed tag
with its fixed value, for arbitrary caller keywords: a caller keyword
colliding with the tag raises instead of emitting, and otherwise the tag
is prepended and survives the pipeline. -/
theorem helper_newline_tagged (env : Env) (k v : String) (method msg : String)
    (kw : Fields) (s : LogState) (hs : goodPipeline s)
    (hkE : k ≠ "event") (hkL : k ≠ "level") (hkT : k ≠ "timestamp") :
    ∀ e ∈ newOutput s (helperCall env (some (k, v)) method msg kw s),
      dictGet e.fields k = some (Val.str v) := by
  by_cases hr : (helperCall env (some (k, v)) method msg kw s).raised = true
  · intro e he
    rw [newOutput_of_eq s _ (helperCall_raised_output env _ method msg kw s hr)] at he
    simp at he
  · have hr' : (helperCall env (some (k, v)) method msg kw s).raised = false := by
      simpa using hr
    rw [helperCall_raised_eq] at hr'
    simp only [Bool.or_eq_false_iff] at hr'
    obtain ⟨⟨hm, hb⟩, ht⟩ := hr'
    obtain ⟨fmt, hp⟩ := ensure_configured_processorsFor env s hs
    have hout1 : (ensure_configured env s).output = s.output :=
      ensure_configured_output env s
    rw [helperCall_emit_eq env (some (k, v)) method msg kw s hm hb ht]
    simp only
    rw [emitConfigured_eq env method msg ((k, Val.str v) :: kw)
      (ensure_configured env s) fmt hp]
    by_cases hdrop : callDropped
        (get_exclude_levels env (ensure_configured env s).excludeLevels) method = true
    · rw [if_pos hdrop]
      intro e he
      rw [newOutput_of_eq s _ hout1] at he
      simp at he
    · rw [if_neg hdrop]
      intro e he
      rw [newOutput_of_append s _
        (renderOf env fmt (ensure_configured env s).context method msg
          ((k, Val.str v) :: kw)) (by simp [hout1])] at he
      simp only [List.mem_singleton] at he
      subst he
      rw [renderOf_get env fmt _ method msg _ k hkL hkT,
        updGet_set_of_ne _ _ _ _ _ hkE]
      exact updGet_cons_self k (Val.str v) kw _ ht

/-- Counterexample to C1: calling `log_success` with a caller-supplied
`status` field does not produce an event carrying `status="success"` —
the duplicate keyword raises `TypeError` and no event is emitted at
all. -/
theorem C1_counterexample :
    (log_success (Env.mk none none "T") "m" [("status", Val.str "x")]
      initState).state.output = []
  ∧ (log_success (Env.mk none none "T") "m" [("status", Val.str "x")]
      initState).raised = true := by
  refine ⟨by decide, by decide⟩

/-- C1 (amended): for every tagged helper, every event the call actually
emits carries the helper's tag key with its fixed value — a caller keyword
with the same key makes the call raise `TypeError` and emit nothing, so no
emitted event ever carries an overridden tag. -/
theorem C1_tag_never_overridden (env : Env) (s : LogState) (msg : String)
    (kw : Fields) (hs : goodPipeline s) :
    (∀ e ∈ newOutput s (log_success env msg kw s),
      dictGet e.fields "status" = some (Val.str "success"))
  ∧ (∀ e ∈ newOutput s (log_start env msg kw s),
      dictGet e.fields "phase" = some (Val.str "start"))
  ∧ (∀ e ∈ newOutput s (log_end env msg kw s),
      dictGet e.fields "phase" = some (Val.str "end"))
  ∧ (∀ e ∈ newOutput s (log_db env msg kw s),
      dictGet e.fields "component" = some (Val.str "database"))
  ∧ (∀ e ∈ newOutput s (log_progress env msg kw s),
      dictGet e.fields "phase" = some (Val.str "progress"))
  ∧ (∀ e ∈ newOutput s (log_completion env msg kw s),
      dictGet e.fields "phase" = some (Val.str "complete"))
  ∧ (∀ e ∈ newOutput s (log_extract env msg kw s),
      dictGet e.fields "operation" = some (Val.str "extract"))
  ∧ (∀ e ∈ newOutput s (log_input env msg kw s),
      dictGet e.fields "direction" = some (Val.str "input"))
  ∧ (∀ e ∈ newOutput s (log_output env msg kw s),
      dictGet e.fields "direction" = some (Val.str "output")) := by
  refine ⟨?_, ?_, ?_, ?_, ?_, ?_, ?_, ?_, ?_⟩ <;>
    exact helper_newline_tagged env _ _ "info" msg kw s hs
      (by decide) (by decide) (by decide)

/-- Witness for C1 (amended): on a JSON-configured state a `log_success`
emits one line and the theorem yields its `status="success"` tag. -/
theorem C1_tag_never_overridden_witness :
    Rendered.json [("status", Val.str "success"), ("event", Val.str "m"),
        ("level", Val.str "info"), ("timestamp", Val.str "T")] ∈
      newOutput (configure (Env.mk none none "T") (some "json") (some []) initState)
        (log_success (Env.mk none none "T") "m" []
          (configure (Env.mk none none "T") (some "json") (some []) initState))
  ∧ dictGet (Rendered.json [("status", Val.str "success"), ("event", Val.str "m"),
      ("level", Val.str "info"), ("timestamp", Val.str "T")]).fields "status"
      = some (Val.str "success") :=
  ⟨by decide,
   (C1_tag_never_overridden (Env.mk none none "T")
      (configure (Env.mk none none "T") (some "json") (some []) initState)
      "m" [] (Or.inr (Or.inr (by decide)))).1
     (Rendered.json [("status", Val.str "success"), ("event", Val.str "m"),
       ("level", Val.str "info"), ("timestamp", Val.str "T")]) (by decide)⟩

/-- A collision-free helper call on a configured state with no exclusions
appends exactly one rendered line. -/
theorem helper_emits_line (env : Env) (tag : Option (String × String))
    (method msg : String) (kw : Fields) (s : LogState) (fmt : String)
    (hc : s.configured = true) (hp : s.pipeline = processorsFor fmt)
    (he : s.excludeLevels = some [])
    (hm : kwHasKey kw "msg" = false) (hb : boundMethodCollides kw = false)
    (ht : (match tag with
           | some (k, _) => kwHasKey kw k
           | none => false) = false) :
    (helperCall env tag method msg kw s).state =
      { s with output := s.output ++ [renderOf env fmt s.context method msg
          (match tag with
           | some (p, q) => (p, Val.str q) :: kw
           | none => kw)] } := by
  rw [helperCall_emit_eq env tag method msg kw s hm hb ht]
  simp only
  rw [ensure_configured_of_configured env s hc]
  rw [emitConfigured_eq env method msg _ s fmt hp, he]
  have hnd : callDropped (get_exclude_levels env (some [])) method = false := rfl
  rw [hnd]
  simp

theorem helper_tagged_emits (env : Env) (k v : String) (msg : String)
    (kw : Fields) (s : LogState) (fmt : String)
    (hc : s.configured = true) (hp : s.pipeline = processorsFor fmt)
    (he : s.excludeLevels = some [])
    (hm : kwHasKey kw "msg" = false) (hb : boundMethodCollides kw = false)
    (htk : kwHasKey kw k = false)
    (hkE : k ≠ "event") (hkL : k ≠ "level") (hkT : k ≠ "timestamp") :
    ∃ e, (helperCall env (some (k, v)) "info" msg kw s).state.output
        = s.output ++ [e]
      ∧ dictGet e.fields "level" = some (Val.str "info")
      ∧ dictGet e.fields k = some (Val.str v) := by
  refine ⟨renderOf env fmt s.context "info" msg ((k, Val.str v) :: kw), ?_, ?_, ?_⟩
  · rw [helper_emits_line env (some (k, v)) "info" msg kw s fmt hc hp he hm hb htk]
  · rw [renderOf_get_level]
    rfl
  · rw [renderOf_get env fmt s.context "info" msg _ k hkL hkT,
      updGet_set_of_ne _ _ _ _ _ hkE]
    exact updGet_cons_self k (Val.str v) kw _ htk

theorem helper_untagged_emits (env : Env) (method lev msg : String)
    (kw : Fields) (s : LogState) (fmt : String)
    (hLev : methodToLevel method = lev)
    (hc : s.configured = true) (hp : s.pipeline = processorsFor fmt)
    (he : s.excludeLevels = some [])
    (hm : kwHasKey kw "msg" = false) (hb : boundMethodCollides kw = false) :
    ∃ e, (helperCall env none method msg kw s).state.output = s.output ++ [e]
      ∧ dictGet e.fields "level" = some (Val.str lev) := by
  refine ⟨renderOf env fmt s.context method msg kw, ?_, ?_⟩
  · rw [helper_emits_line env none method msg kw s fmt hc hp he hm hb rfl]
  · rw [renderOf_get_level, hLev]

/-- C7: the helper catalog — on a configured state with no exclusions and
collision-free keywords, each helper emits exactly one event at its fixed
severity carrying its fixed tag: `log_success` tags `status=success`,
`log_error`/`log_warning`/`log_info` carry no tag at error/warning/info
level, `log_start`/`log_end`/`log_progress`/`log_completion` tag `phase`,
`log_db` tags `component=database`, `log_extract` tags
`operation=extract`, and `log_input`/`log_output` tag `direction`, all at
info level except the error and warning helpers. -/
theorem C7_helper_catalog (env : Env) (s : LogState) (msg : String)
    (kw : Fields) (fmt : String)
    (hc : s.configured = true) (hp : s.pipeline = processorsFor fmt)
    (he : s.excludeLevels = some [])
    (hm : kwHasKey kw "msg" = false) (hb : boundMethodCollides kw = false)
    (htags : kwAvoids kw ["status", "phase", "component", "operation",
      "direction"] = true) :
    (∃ e, (log_success env msg kw s).state.output = s.output ++ [e]
       ∧ dictGet e.fields "level" = some (Val.str "info")
       ∧ dictGet e.fields "status" = some (Val.str "success"))
  ∧ (∃ e, (log_error env msg kw s).state.output = s.output ++ [e]
       ∧ dictGet e.fields "level" = some (Val.str "error"))
  ∧ (∃ e, (log_warning env msg kw s).state.output = s.output ++ [e]
       ∧ dictGet e.fields "level" = some (Val.str "warning"))
  ∧ (∃ e, (log_info env msg kw s).state.output = s.output ++ [e]
       ∧ dictGet e.fields "level" = some (Val.str "info"))
  ∧ (∃ e, (log_start env msg kw s).state.output = s.output ++ [e]
       ∧ dictGet e.fields "level" = some (Val.str "info")
       ∧ dictGet e.fields "phase" = some (Val.str "start"))
  ∧ (∃ e, (log_end env msg kw s).state.output = s.output ++ [e]
       ∧ dictGet e.fields "level" = some (Val.str "info")
       ∧ dictGet e.fields "phase" = some (Val.str "end"))
  ∧ (∃ e, (log_db env msg kw s).state.output = s.output ++ [e]
       ∧ dictGet e.fields "level" = some (Val.str "info")
       ∧ dictGet e.fields "component" = some (Val.str "database"))
  ∧ (∃ e, (log_progress env msg kw s).state.output = s.output ++ [e]
       ∧ dictGet e.fields "level" = some (Val.str "info")
       ∧ dictGet e.fields "phase" = some (Val.str "progress"))
  ∧ (∃ e, (log_completion env msg kw s).state.output = s.output ++ [e]
       ∧ dictGet e.fields "level" = some (Val.str "info")
       ∧ dictGet e.fields "phase" = some (Val.str "complete"))
  ∧ (∃ e, (log_extract env msg kw s).state.output = s.output ++ [e]
       ∧ dictGet e.fields "level" = some (Val.str "info")
       ∧ dictGet e.fields "operation" = some (Val.str "extract"))
  ∧ (∃ e, (log_input env msg kw s).state.output = s.output ++ [e]
       ∧ dictGet e.fields "level" = some (Val.str "info")
       ∧ dictGet e.fields "direction" = some (Val.str "input"))
  ∧ (∃ e, (log_output env msg kw s).state.output = s.output ++ [e]
       ∧ dictGet e.fields "level" = some (Val.str "info")
       ∧ dictGet e.fields "direction" = some (Val.str "output")) := by
  simp only [kwAvoids, List.all_cons, List.all_nil, Bool.and_eq_true,
    Bool.and_true, Bool.not_eq_true'] at htags
  obtain ⟨h1, h2, h3, h4, h5⟩ := htags
  refine ⟨?_, ?_, ?_, ?_, ?_, ?_, ?_, ?_, ?_, ?_, ?_, ?_⟩
  · exact helper_tagged_emits env "status" "success" msg kw s fmt hc hp he hm hb
      h1 (by decide) (by decide) (by decide)
  · exact helper_untagged_emits env "error" "error" msg kw s fmt (by decide)
      hc hp he hm hb
  · exact helper_untagged_emits env "warning" "warning" msg kw s fmt (by decide)
      hc hp he hm hb
  · exact helper_untagged_emits env "info" "info" msg kw s fmt (by decide)
      hc hp he hm hb
  · exact helper_tagged_emits env "phase" "start" msg kw s fmt hc hp he hm hb
      h2 (by decide) (by decide) (by decide)
  · exact helper_tagged_emits env "phase" "end" msg kw s fmt hc hp he hm hb
      h2 (by decide) (by decide) (by decide)
  · exact helper_tagged_emits env "component" "database" msg kw s fmt hc hp he
      hm hb h3 (by decide) (by decide) (by decide)
  · exact helper_tagged_emits env "phase" "progress" msg kw s fmt hc hp he hm hb
      h2 (by decide) (by decide) (by decide)
  · exact helper_tagged_emits env "phase" "complete" msg kw s fmt hc hp he hm hb
      h2 (by decide) (by decide) (by decide)
  · exact helper_tagged_emits env "operation" "extract" msg kw s fmt hc hp he
      hm hb h4 (by decide) (by decide) (by decide)
  · exact helper_tagged_emits env "direction" "input" msg kw s fmt hc hp he hm
      hb h5 (by decide) (by decide) (by decide)
  · exact helper_tagged_emits env "direction" "output" msg kw s fmt hc hp he hm
      hb h5 (by decide) (by decide) (by decide)

/-- Witness for C7 at concrete inputs: on a JSON-configured state with no
exclusions, `log_success` emits one info-level line tagged
`status=success` and `log_error` emits one error-level line. -/
theorem C7_helper_catalog_witness :
    (∃ e, (log_success (Env.mk none none "T") "m" []
        (configure (Env.mk none none "T") (some "json") (some [])
          initState)).state.output
        = (configure (Env.mk none none "T") (some "json") (some [])
            initState).output ++ [e]
      ∧ dictGet e.fields "level" = some (Val.str "info")
      ∧ dictGet e.fields "status" = some (Val.str "success"))
  ∧ (∃ e, (log_error (Env.mk none none "T") "m" []
        (configure (Env.mk none none "T") (some "json") (some [])
          initState)).state.output
        = (configure (Env.mk none none "T") (some "json") (some [])
            initState).output ++ [e]
      ∧ dictGet e.fields "level" = some (Val.str "error")) :=
  ⟨(C7_helper_catalog (Env.mk none none "T")
      (configure (Env.mk none none "T") (some "json") (some []) initState)
      "m" [] "json" (by decide) (by decide) (by decide) (by decide) (by decide)
      (by decide)).1,
   (C7_helper_catalog (Env.mk none none "T")
      (configure (Env.mk none none "T") (some "json") (some []) initState)
      "m" [] "json" (by decide) (by decide) (by decide) (by decide) (by decide)
      (by decide)).2.1⟩

theorem loggerMethodCall_context (env : Env) (method msg : String)
    (kw : Fields) (s : LogState) :
    (loggerMethodCall env method msg kw s).state.context = s.context := by
  cases hb : boundMethodCollides kw <;>
    simp [loggerMethodCall, hb, emitConfigured_context, ensure_configured_context]

theorem loggerMethodCall_good (env : Env) (method msg : String) (kw : Fields)
    (s : LogState) (hs : goodPipeline s) :
    goodPipeline (loggerMethodCall env method msg kw s).state := by
  cases hb : boundMethodCollides kw with
  | true =>
      simp only [loggerMethodCall, hb, if_true]
      rcases ensure_configured_pipeline_good env s hs with h | h
      · exact Or.inr (Or.inl h)
      · exact Or.inr (Or.inr h)
  | false =>
      simp only [loggerMethodCall, hb, Bool.false_eq_true, if_false]
      rcases ensure_configured_pipeline_good env s hs with h | h
      · exact Or.inr (Or.inl (by rw [emitConfigured_pipeline]; exact h))
      · exact Or.inr (Or.inr (by rw [emitConfigured_pipeline]; exact h))

/-- Every line emitted by a `get_logger(...).method(...)` call carries a
context-safe key (one the caller's keywords and the pipeline do not write)
with exactly the value the ambient context holds for it — present when
bound, absent when not. -/
theorem loggerCall_newline_get (env : Env) (method msg : String) (kw : Fields)
    (s : LogState) (k : String) (hs : goodPipeline s)
    (hb : boundMethodCollides kw = false) (hkw : kwHasKey kw k = false)
    (hkE : k ≠ "event") (hkL : k ≠ "level") (hkT : k ≠ "timestamp") :
    ∀ e ∈ newOutput s (loggerMethodCall env method msg kw s),
      dictGet e.fields k = dictGet s.context k := by
  obtain ⟨fmt, hp⟩ := ensure_configured_processorsFor env s hs
  have hctx := ensure_configured_context env s
  have hout1 := ensure_configured_output env s
  simp only [loggerMethodCall, hb, Bool.false_eq_true, if_false]
  rw [emitConfigured_eq env method msg kw (ensure_configured env s) fmt hp]
  by_cases hdrop : callDropped
      (get_exclude_levels env (ensure_configured env s).excludeLevels) method = true
  · rw [if_pos hdrop]
    intro e he
    rw [newOutput_of_eq s _ hout1] at he
    simp at he
  · rw [if_neg hdrop]
    intro e he
    rw [newOutput_of_append s _
      (renderOf env fmt (ensure_configured env s).context method msg kw)
      (by simp [hout1])] at he
    simp only [List.mem_singleton] at he
    subst he
    rw [renderOf_get env fmt _ method msg kw k hkL hkT,
      updGet_of_not_has _ _ _ (kwHasKey_set_of_ne kw "event" (Val.str msg) k hkw hkE),
      hctx]

/-- C9: ambient-context lifecycle — binding a field makes it part of the
context; emissions leave the context untouched, so consecutive emissions
all include a bound field (and a second emission right after a first still
includes it); unbinding removes the field so later events lack it, and
unbinding an absent key is a no-op returning the state unchanged; clearing
empties the context so later events lack every previously bound field. -/
theorem C9_context_lifecycle (env : Env) (s sAbs : LogState) (k : String)
    (v : Val) (msg msg2 : String) (kw kw2 : Fields) (method method2 : String)
    (hs : goodPipeline s) (hsA : goodPipeline sAbs)
    (hGet : dictGet s.context k = some v) (hGetA : dictGet sAbs.context k = none)
    (hb : boundMethodCollides kw = false) (hb2 : boundMethodCollides kw2 = false)
    (hkw : kwHasKey kw k = false) (hkw2 : kwHasKey kw2 k = false)
    (hkE : k ≠ "event") (hkL : k ≠ "level") (hkT : k ≠ "timestamp") :
    dictGet (bind_context [(k, v)] sAbs).context k = some v
  ∧ (loggerMethodCall env method msg kw s).state.context = s.context
  ∧ (∀ e ∈ newOutput s (loggerMethodCall env method msg kw s),
      dictGet e.fields k = some v)
  ∧ (∀ e ∈ newOutput (loggerMethodCall env method msg kw s).state
        (loggerMethodCall env method2 msg2 kw2
          (loggerMethodCall env method msg kw s).state),
      dictGet e.fields k = some v)
  ∧ dictGet (unbind_context [k] s).context k = none
  ∧ (∀ e ∈ newOutput sAbs (loggerMethodCall env method msg kw sAbs),
      dictGet e.fields k = none)
  ∧ unbind_context [k] sAbs = sAbs
  ∧ (clear_context s).context = []
  ∧ (∀ e ∈ newOutput (clear_context s)
        (loggerMethodCall env method msg kw (clear_context s)),
      dictGet e.fields k = none) := by
  refine ⟨?_, loggerMethodCall_context env method msg kw s, ?_, ?_, ?_, ?_, ?_, rfl, ?_⟩
  · simp [bind_context, dictGet_update, updGet]
  · intro e he
    rw [loggerCall_newline_get env method msg kw s k hs hb hkw hkE hkL hkT e he]
    exact hGet
  · intro e he
    rw [loggerCall_newline_get env method2 msg2 kw2
      (loggerMethodCall env method msg kw s).state k
      (loggerMethodCall_good env method msg kw s hs) hb2 hkw2 hkE hkL hkT e he]
    rw [loggerMethodCall_context env method msg kw s]
    exact hGet
  · simp [unbind_context, dictRemove_get_self]
  · intro e he
    rw [loggerCall_newline_get env method msg kw sAbs k hsA hb hkw hkE hkL hkT e he]
    exact hGetA
  · have h := dictRemove_eq_self sAbs.context k hGetA
    simp [unbind_context, h]
  · have hsC : goodPipeline (clear_context s) := by
      simpa [goodPipeline, clear_context] using hs
    intro e he
    rw [loggerCall_newline_get env method msg kw (clear_context s) k hsC hb hkw
      hkE hkL hkT e he]
    simp [clear_context, dictGet]

/-- Witness for C9 at concrete inputs: after binding `request_id`, an
emission includes it; unbinding it from an unbound state is a no-op, and
unbinding removes it. -/
theorem C9_context_lifecycle_witness :
    (Rendered.json [("request_id", Val.str "abc"), ("event", Val.str "m1"),
        ("level", Val.str "info"), ("timestamp", Val.str "T")] ∈
      newOutput (bind_context [("request_id", Val.str "abc")]
          (configure (Env.mk none none "T") (some "json") (some []) initState))
        (loggerMethodCall (Env.mk none none "T") "info" "m1" []
          (bind_context [("request_id", Val.str "abc")]
            (configure (Env.mk none none "T") (some "json") (some []) initState)))
     ∧ dictGet (Rendered.json [("request_id", Val.str "abc"),
         ("event", Val.str "m1"), ("level", Val.str "info"),
         ("timestamp", Val.str "T")]).fields "request_id" = some (Val.str "abc"))
  ∧ unbind_context ["request_id"]
      (configure (Env.mk none none "T") (some "json") (some []) initState)
      = configure (Env.mk none none "T") (some "json") (some []) initState
  ∧ dictGet (unbind_context ["request_id"]
      (bind_context [("request_id", Val.str "abc")]
        (configure (Env.mk none none "T") (some "json") (some [])
          initState))).context "request_id" = none :=
  ⟨⟨by decide,
    (C9_context_lifecycle (Env.mk none none "T")
      (bind_context [("request_id", Val.str "abc")]
        (configure (Env.mk none none "T") (some "json") (some []) initState))
      (configure (Env.mk none none "T") (some "json") (some []) initState)
      "request_id" (Val.str "abc") "m1" "m2" [] [] "info" "info"
      (Or.inr (Or.inr (by decide))) (Or.inr (Or.inr (by decide)))
      (by decide) (by decide) (by decide) (by decide) (by decide) (by decide)
      (by decide) (by decide) (by decide)).2.2.1
      (Rendered.json [("request_id", Val.str "abc"), ("event", Val.str "m1"),
        ("level", Val.str "info"), ("timestamp", Val.str "T")]) (by decide)⟩,
   (C9_context_lifecycle (Env.mk none none "T")
      (bind_context [("request_id", Val.str "abc")]
        (configure (Env.mk none none "T") (some "json") (some []) initState))
      (configure (Env.mk none none "T") (some "json") (some []) initState)
      "request_id" (Val.str "abc") "m1" "m2" [] [] "info" "info"
      (Or.inr (Or.inr (by decide))) (Or.inr (Or.inr (by decide)))
      (by decide) (by decide) (by decide) (by decide) (by decide) (by decide)
      (by decide) (by decide) (by decide)).2.2.2.2.2.2.1,
   (C9_context_lifecycle (Env.mk none none "T")
      (bind_context [("request_id", Val.str "abc")]
        (configure (Env.mk none none "T") (some "json") (some []) initState))
      (configure (Env.mk none none "T") (some "json") (some []) initState)
      "request_id" (Val.str "abc") "m1" "m2" [] [] "info" "info"
      (Or.inr (Or.inr (by decide))) (Or.inr (Or.inr (by decide)))
      (by decide) (by decide) (by decide) (by decide) (by decide) (by decide)
      (by decide) (by decide) (by decide)).2.2.2.2.1⟩

/-- Counterexample to C10: a caller keyword set disjoint from the tag key
can still raise `TypeError` — `log_success(msg, **{"msg": ...})` collides
with the helper's own `msg` parameter and raises before anything runs,
although `"msg"` is not the tag key `"status"`. -/
theorem C10_counterexample :
    kwHasKey [("msg", Val.str "q")] "status" = false
  ∧ (log_success (Env.mk none none "T") "m" [("msg", Val.str "q")]
      initState).raised = true
  ∧ (log_success (Env.mk none none "T") "m" [("msg", Val.str "q")]
      initState).state.output = [] := by
  refine ⟨by decide, by decide, by decide⟩

/-- C10 (amended): a tagged helper raises `TypeError` exactly when the
caller-supplied keys include the tag key or one of the reserved parameter
names of the call chain (`msg` of the helper itself, `self`/`event` of the
underlying bound method); when it raises, no event is emitted; when the
caller keys avoid the tag key and the reserved names, it does not
raise. -/
theorem C10_duplicate_keyword (env : Env) (s : LogState) (msg : String)
    (kw : Fields) :
    ((log_success env msg kw s).raised =
        (kwHasKey kw "msg" || boundMethodCollides kw || kwHasKey kw "status")
     ∧ ((log_success env msg kw s).raised = true →
        (log_success env msg kw s).state.output = s.output))
  ∧ ((log_start env msg kw s).raised =
        (kwHasKey kw "msg" || boundMethodCollides kw || kwHasKey kw "phase")
     ∧ ((log_start env msg kw s).raised = true →
        (log_start env msg kw s).state.output = s.output))
  ∧ ((log_end env msg kw s).raised =
        (kwHasKey kw "msg" || boundMethodCollides kw || kwHasKey kw "phase")
     ∧ ((log_end env msg kw s).raised = true →
        (log_end env msg kw s).state.output = s.output))
  ∧ ((log_db env msg kw s).raised =
        (kwHasKey kw "msg" || boundMethodCollides kw || kwHasKey kw "component")
     ∧ ((log_db env msg kw s).raised = true →
        (log_db env msg kw s).state.output = s.output))
  ∧ ((log_progress env msg kw s).raised =
        (kwHasKey kw "msg" || boundMethodCollides kw || kwHasKey kw "phase")
     ∧ ((log_progress env msg kw s).raised = true →
        (log_progress env msg kw s).state.output = s.output))
  ∧ ((log_completion env msg kw s).raised =
        (kwHasKey kw "msg" || boundMethodCollides kw || kwHasKey kw "phase")
     ∧ ((log_completion env msg kw s).raised = true →
        (log_completion env msg kw s).state.output = s.output))
  ∧ ((log_extract env msg kw s).raised =
        (kwHasKey kw "msg" || boundMethodCollides kw || kwHasKey kw "operation")
     ∧ ((log_extract env msg kw s).raised = true →
        (log_extract env msg kw s).state.output = s.output))
  ∧ ((log_input env msg kw s).raised =
        (kwHasKey kw "msg" || boundMethodCollides kw || kwHasKey kw "direction")
     ∧ ((log_input env msg kw s).raised = true →
        (log_input env msg kw s).state.output = s.output))
  ∧ ((log_output env msg kw s).raised =
        (kwHasKey kw "msg" || boundMethodCollides kw || kwHasKey kw "direction")
     ∧ ((log_output env msg kw s).raised = true →
        (log_output env msg kw s).state.output = s.output)) :=
  ⟨⟨helperCall_raised_eq env (some ("status", "success")) "info" msg kw s,
    fun h => helperCall_raised_output env _ "info" msg kw s h⟩,
   ⟨helperCall_raised_eq env (some ("phase", "start")) "info" msg kw s,
    fun h => helperCall_raised_output env _ "info" msg kw s h⟩,
   ⟨helperCall_raised_eq env (some ("phase", "end")) "info" msg kw s,
    fun h => helperCall_raised_output env _ "info" msg kw s h⟩,
   ⟨helperCall_raised_eq env (some ("component", "database")) "info" msg kw s,
    fun h => helperCall_raised_output env _ "info" msg kw s h⟩,
   ⟨helperCall_raised_eq env (some ("phase", "progress")) "info" msg kw s,
    fun h => helperCall_raised_output env _ "info" msg kw s h⟩,
   ⟨helperCall_raised_eq env (some ("phase", "complete")) "info" msg kw s,
    fun h => helperCall_raised_output env _ "info" msg kw s h⟩,
   ⟨helperCall_raised_eq env (some ("operation", "extract")) "info" msg kw s,
    fun h => helperCall_raised_output env _ "info" msg kw s h⟩,
   ⟨helperCall_raised_eq env (some ("direction", "input")) "info" msg kw s,
    fun h => helperCall_raised_output env _ "info" msg kw s h⟩,
   ⟨helperCall_raised_eq env (some ("direction", "output")) "info" msg kw s,
    fun h => helperCall_raised_output env _ "info" msg kw s h⟩⟩

/-- Witness for C10 (amended) at concrete inputs: a duplicate `status`
keyword makes `log_success` raise and emit nothing, and an ordinary
keyword raises nothing on `log_start`. -/
theorem C10_duplicate_keyword_witness :
    (log_success (Env.mk none none "T") "m" [("status", Val.str "x")]
      initState).raised = true
  ∧ (log_success (Env.mk none none "T") "m" [("status", Val.str "x")]
      initState).state.output = initState.output
  ∧ (log_start (Env.mk none none "T") "m" [("user", Val.str "u")]
      initState).raised = false :=
  ⟨((C10_duplicate_keyword (Env.mk none none "T") initState "m"
      [("status", Val.str "x")]).1.1).trans (by decide),
   (C10_duplicate_keyword (Env.mk none none "T") initState "m"
      [("status", Val.str "x")]).1.2
     (((C10_duplicate_keyword (Env.mk none none "T") initState "m"
        [("status", Val.str "x")]).1.1).trans (by decide)),
   ((C10_duplicate_keyword (Env.mk none none "T") initState "m"
      [("user", Val.str "u")]).2.1.1).trans (by decide)⟩

end MyLogger
